import Mathlib

/-
Verification of the incremental, checkpointed discovery-and-fetch pipeline
of the kwcc_tdz repository.

The Python sources are embedded shallowly:
  - Python dicts keyed by strings become association lists that preserve
    insertion order, matching the ordered semantics of Python dicts.
  - Python datetime values are represented by their Unix timestamps as Int;
    datetime.fromisoformat is an abstract parameter of type
    String to Option Int (none models a parse failure).
  - the upstream client is a deterministic environment of total functions;
    a raised transport error is modelled by Option.none where the code
    catches it.
  - Python truthiness of a string is nonemptiness, of an int nonzeroness.

Embedded modules:
  - src/persistence/raw_events.py      (RawEventStore)
  - src/discovery/checkpoint.py        (DiscoveryCheckpoint, CheckpointManager)
  - src/discovery/batch_processor.py   (BatchDiscoveryProcessor)
  - src/discovery/results_fetcher.py   (BatchResultsFetcher)
  - src/lambda_handlers/batch_discovery.py (handler)
-/

/-- Lowercase of a string, character by character; models Python str.lower
on the ASCII names used by the pipeline. -/
def lowerStr (s : String) : String := String.mk (s.data.map Char.toLower)

/-- Does the first character list start with the second one. -/
def chStarts : List Char → List Char → Bool
  | _, [] => true
  | [], _ :: _ => false
  | a :: as, b :: bs => a == b && chStarts as bs

/-- Does the first character list contain the second as a contiguous run. -/
def chSub : List Char → List Char → Bool
  | [], pat => pat.isEmpty
  | a :: t, pat => chStarts (a :: t) pat || chSub t pat

/-- Python substring test: pat in s. -/
def strContains (s pat : String) : Bool := chSub s.data pat.data

/-- Python or on strings: first operand if nonempty, else the second. -/
def strOr (a b : String) : String := if a = "" then b else a

/-- Python or on ints: first operand if nonzero, else the second. -/
def intOr (a b : Int) : Int := if a = 0 then b else a

/-- Keys of an association list, in insertion order. -/
def keysOf {α : Type} (l : List (String × α)) : List String := l.map Prod.fst

/-- Update every entry of an association list at a key with f, in place. -/
def updA {α : Type} (k : String) (f : α → α) (l : List (String × α)) :
    List (String × α) :=
  l.map (fun p => if p.1 = k then (p.1, f p.2) else p)

/-
Raw event accumulator: src/persistence/raw_events.py.
-/

/-- A candidate event dict handed to RawEventStore.merge_events, with every
source field name the code probes (id, zid, DT_RowId, name, t, title,
timestamp, tm, route_id, r). -/
structure NewEvent where
  id : String
  zid : String
  row_id : String
  name : String
  t : String
  title : String
  timestamp : Int
  tm : Int
  route_id : String
  route_r : String
deriving DecidableEq

/-- A stored record of the raw event store, as built by merge_events. -/
structure RawRecord where
  zid : String
  name : String
  timestamp : Int
  route_id : String
  discovery_timestamp : String
  raw_data : NewEvent
deriving DecidableEq

/-- Event id extraction of merge_events: str of id or zid or DT_RowId. -/
def extractEventId (event : NewEvent) : String :=
  strOr event.id (strOr event.zid event.row_id)

/-- RawEventStore.merge_events (src/persistence/raw_events.py lines 64-116).
The discovery timestamp datetime.now is passed as a parameter. -/
def merge_events (discovery_timestamp : String)
    (existing : List (String × RawRecord)) (new_events : List NewEvent) :
    List (String × RawRecord) :=
  new_events.foldl (fun merged event =>
    let event_id := extractEventId event
    if event_id = "" then merged
    else if event_id ∈ keysOf merged then merged
    else merged ++ [(event_id,
      { zid := event_id
        name := strOr event.name (strOr event.t event.title)
        timestamp := intOr event.timestamp event.tm
        route_id := strOr event.route_id event.route_r
        discovery_timestamp := discovery_timestamp
        raw_data := event })]) existing

/-- RawEventStore.get_stage_events (src/persistence/raw_events.py lines
133-203).  The start and end timestamps stand for the results of
datetime.combine(start_date, min time) and datetime.combine(end_date,
max time); the returned Option Int is the event datetime, none when the
stored timestamp is zero.  The stable descending sort of Python list.sort
with reverse is modelled by insertion sort on the score order. -/
def stageStep (stage_pattern : String) (start_ts end_ts : Int)
    (acc : List (String × Option Int × Int)) (p : String × RawRecord) :
    List (String × Option Int × Int) :=
  let event_name := lowerStr p.2.name
  let event_ts := p.2.timestamp
  if strContains event_name stage_pattern = false then acc
  else if strContains event_name "run" then acc
  else
    let score0 : Int := 0
    let score1 := if strContains event_name "tour de zwift" then
      score0 + 2 else score0
    let score2 := if strContains event_name "advanced" then
      score1 - 2 else score1
    let score3 := if event_ts ≠ 0 then
      (if start_ts ≤ event_ts ∧ event_ts ≤ end_ts then score2 + 3
       else score2 - 1) else score2
    let event_datetime : Option Int :=
      if event_ts ≠ 0 then some event_ts else none
    acc ++ [(p.1, event_datetime, score3)]

def get_stage_events (events : List (String × RawRecord))
    (stage_number : Nat) (start_ts end_ts : Int) :
    List (String × Option Int) :=
  let stage_pattern := "stage " ++ toString stage_number
  let matching_events : List (String × Option Int × Int) :=
    events.foldl (stageStep stage_pattern start_ts end_ts) []
  let sorted := List.insertionSort
    (fun a b : String × Option Int × Int => b.2.2 ≤ a.2.2) matching_events
  sorted.map (fun x => (x.1, x.2.1))

-- Basic fold lemmas about merge_events.

/-- One step of the merge_events fold. -/
def mergeStep (discovery_timestamp : String)
    (merged : List (String × RawRecord)) (event : NewEvent) :
    List (String × RawRecord) :=
  let event_id := extractEventId event
  if event_id = "" then merged
  else if event_id ∈ keysOf merged then merged
  else merged ++ [(event_id,
    { zid := event_id
      name := strOr event.name (strOr event.t event.title)
      timestamp := intOr event.timestamp event.tm
      route_id := strOr event.route_id event.route_r
      discovery_timestamp := discovery_timestamp
      raw_data := event })]

theorem merge_events_eq_foldl (ts : String)
    (existing : List (String × RawRecord)) (new_events : List NewEvent) :
    merge_events ts existing new_events =
      new_events.foldl (mergeStep ts) existing := rfl

theorem mergeStep_append_suffix (ts : String)
    (merged : List (String × RawRecord)) (event : NewEvent) :
    ∃ d, mergeStep ts merged event = merged ++ d := by
  unfold mergeStep
  by_cases h1 : extractEventId event = ""
  · exact ⟨[], by simp [h1]⟩
  · by_cases h2 : extractEventId event ∈ keysOf merged
    · exact ⟨[], by simp [h1, h2]⟩
    · refine ⟨[(extractEventId event,
        { zid := extractEventId event
          name := strOr event.name (strOr event.t event.title)
          timestamp := intOr event.timestamp event.tm
          route_id := strOr event.route_id event.route_r
          discovery_timestamp := ts
          raw_data := event })], ?_⟩
      simp [h1, h2]

theorem merge_foldl_append_suffix (ts : String)
    (new_events : List NewEvent) (existing : List (String × RawRecord)) :
    ∃ d, new_events.foldl (mergeStep ts) existing = existing ++ d := by
  induction new_events generalizing existing with
  | nil => exact ⟨[], by simp⟩
  | cons e rest ih =>
    obtain ⟨d1, hd1⟩ := mergeStep_append_suffix ts existing e
    obtain ⟨d2, hd2⟩ := ih (existing ++ d1)
    exact ⟨d1 ++ d2, by simp [List.foldl_cons, hd1, hd2]⟩

theorem keysOf_append {α : Type} (l1 l2 : List (String × α)) :
    keysOf (l1 ++ l2) = keysOf l1 ++ keysOf l2 := by
  simp [keysOf]

/-- A key present in the accumulator stays present through the merge fold. -/
theorem merge_foldl_keys_mono (ts : String) (new_events : List NewEvent)
    (existing : List (String × RawRecord)) (k : String)
    (hk : k ∈ keysOf existing) :
    k ∈ keysOf (new_events.foldl (mergeStep ts) existing) := by
  obtain ⟨d, hd⟩ := merge_foldl_append_suffix ts new_events existing
  rw [hd, keysOf_append]
  exact List.mem_append_left _ hk

/-- A merge step leaves the id of its own candidate among the keys. -/
theorem mergeStep_mem_keys (ts : String)
    (merged : List (String × RawRecord)) (e : NewEvent)
    (hid : extractEventId e ≠ "") :
    extractEventId e ∈ keysOf (mergeStep ts merged e) := by
  unfold mergeStep keysOf
  by_cases h2 : extractEventId e ∈ merged.map Prod.fst
  · simp only [keysOf]
    simp [hid, h2]
  · simp only [keysOf]
    simp [hid, h2]

/-- Every nonempty candidate id is a key after the merge fold. -/
theorem merge_foldl_adds_ids (ts : String) (new_events : List NewEvent)
    (existing : List (String × RawRecord)) (e : NewEvent)
    (he : e ∈ new_events) (hid : extractEventId e ≠ "") :
    extractEventId e ∈ keysOf (new_events.foldl (mergeStep ts) existing) := by
  obtain ⟨l1, l2, rfl⟩ := List.append_of_mem he
  rw [List.foldl_append, List.foldl_cons]
  exact merge_foldl_keys_mono ts l2 _ _ (mergeStep_mem_keys ts _ e hid)

/-- When every candidate is empty-id or already a key, a merge fold is a
no-op. -/
theorem merge_foldl_noop (ts : String) (new_events : List NewEvent)
    (existing : List (String × RawRecord))
    (h : ∀ e ∈ new_events, extractEventId e = "" ∨
      extractEventId e ∈ keysOf existing) :
    new_events.foldl (mergeStep ts) existing = existing := by
  induction new_events with
  | nil => rfl
  | cons c rest ih =>
    have hstep : mergeStep ts existing c = existing := by
      rcases h c (by simp) with h1 | h2
      · simp [mergeStep, h1]
      · unfold mergeStep
        by_cases h1 : extractEventId c = ""
        · simp [h1]
        · simp [h1, h2]
    rw [List.foldl_cons, hstep]
    exact ih (fun e he => h e (by simp [he]))

/-- Lookup in an appended association list hits the left part when the key
is among its keys. -/
theorem lookup_append_of_mem {α : Type} (l1 l2 : List (String × α))
    (k : String) (hk : k ∈ keysOf l1) :
    List.lookup k (l1 ++ l2) = List.lookup k l1 := by
  induction l1 with
  | nil => simp [keysOf] at hk
  | cons p rest ih =>
    rcases p with ⟨k1, v1⟩
    by_cases h : k = k1
    · simp [List.lookup, h]
    · have hk2 : k ∈ keysOf rest := by
        simp [keysOf] at hk ⊢
        rcases hk with h1 | h1
        · exact absurd h1 h
        · exact h1
      simp only [List.cons_append, List.lookup]
      have hbeq : (k == k1) = false := by
        exact beq_false_of_ne h
      rw [hbeq]
      exact ih hk2

/-- C2.  Idempotent merge: merging the same candidate list a second time,
at any later discovery timestamp, changes nothing:
merge(merge(E, C), C) = merge(E, C) for every mapping E and list C. -/
theorem C2_merge_idempotent (ts1 ts2 : String)
    (existing : List (String × RawRecord)) (new_events : List NewEvent) :
    merge_events ts2 (merge_events ts1 existing new_events) new_events =
      merge_events ts1 existing new_events := by
  simp only [merge_events_eq_foldl]
  apply merge_foldl_noop
  intro e he
  by_cases hid : extractEventId e = ""
  · exact Or.inl hid
  · exact Or.inr (merge_foldl_adds_ids ts1 new_events existing e he hid)

/-- C3.  No-overwrite invariant of merge: an event id already present in
the existing mapping keeps exactly its old record after a merge, whatever
the candidate list contains for that id, and the existing key set is
contained in the key set of the result. -/
theorem C3_merge_no_overwrite (ts : String)
    (existing : List (String × RawRecord)) (new_events : List NewEvent)
    (eid : String) (heid : eid ∈ keysOf existing) :
    List.lookup eid (merge_events ts existing new_events) =
      List.lookup eid existing ∧
    keysOf existing ⊆ keysOf (merge_events ts existing new_events) := by
  rw [merge_events_eq_foldl]
  obtain ⟨d, hd⟩ := merge_foldl_append_suffix ts new_events existing
  rw [hd]
  constructor
  · exact lookup_append_of_mem existing d eid heid
  · rw [keysOf_append]
    exact fun k hk => List.mem_append_left _ hk

/-- C3 witness: a concrete mapping holding id 7 and a candidate list with a
conflicting record for id 7; the merge keeps the original record. -/
theorem C3_merge_no_overwrite_witness :
    ("7" ∈ keysOf [("7", (⟨"7", "Original", 100, "", "d0",
        ⟨"7", "", "", "Original", "", "", 100, 0, "", ""⟩⟩ : RawRecord))]) ∧
    (List.lookup "7" (merge_events "d1"
        [("7", ⟨"7", "Original", 100, "", "d0",
          ⟨"7", "", "", "Original", "", "", 100, 0, "", ""⟩⟩)]
        [⟨"7", "", "", "Conflicting", "", "", 999, 0, "", ""⟩]) =
      List.lookup "7"
        [("7", ⟨"7", "Original", 100, "", "d0",
          ⟨"7", "", "", "Original", "", "", 100, 0, "", ""⟩⟩)] ∧
     keysOf [("7", (⟨"7", "Original", 100, "", "d0",
        ⟨"7", "", "", "Original", "", "", 100, 0, "", ""⟩⟩ : RawRecord))] ⊆
      keysOf (merge_events "d1"
        [("7", ⟨"7", "Original", 100, "", "d0",
          ⟨"7", "", "", "Original", "", "", 100, 0, "", ""⟩⟩)]
        [⟨"7", "", "", "Conflicting", "", "", 999, 0, "", ""⟩])) :=
  ⟨by decide, C3_merge_no_overwrite "d1" _ _ "7" (by decide)⟩

/-
Stable descending sort, characterized as concatenation of the equal-score
groups in encounter order, taken along a strictly descending list of score
levels.  This is the specification of Python list.sort with a score key and
reverse order, which is documented to be stable.
-/

/-- Concatenation of the key-level groups of l, levels taken from S. -/
def flatGroups {α : Type} (key : α → Int) (S : List Int) (l : List α) :
    List α :=
  S.flatMap (fun v => l.filter (fun x => decide (key x = v)))

theorem mem_flatGroups {α : Type} (key : α → Int) (S : List Int)
    (l : List α) (x : α) (hx : x ∈ flatGroups key S l) :
    key x ∈ S ∧ x ∈ l := by
  unfold flatGroups at hx
  rw [List.mem_flatMap] at hx
  obtain ⟨v, hv, hxl⟩ := hx
  rw [List.mem_filter] at hxl
  refine ⟨?_, hxl.1⟩
  have := hxl.2
  simp at this
  rw [this]
  exact hv

theorem flatGroups_nil {α : Type} (key : α → Int) (S : List Int) :
    flatGroups key S [] = [] := by
  unfold flatGroups
  simp

/-- Prepending an element whose key is at no level leaves the groups
unchanged. -/
theorem flatGroups_cons_not_mem {α : Type} (key : α → Int) (S : List Int)
    (l : List α) (x : α) (hx : key x ∉ S) :
    flatGroups key S (x :: l) = flatGroups key S l := by
  unfold flatGroups
  apply List.flatMap_congr
  intro v hv
  have hne : ¬ key x = v := fun h => hx (h ▸ hv)
  simp [List.filter_cons, hne]

theorem orderedInsert_of_head_le {α : Type} (key : α → Int) (x : α)
    (L : List α) (h : ∀ y ∈ L, key y ≤ key x) :
    List.orderedInsert (fun a b => key b ≤ key a) x L = x :: L := by
  cases L with
  | nil => rfl
  | cons b t =>
    have hb : key b ≤ key x := h b (by simp)
    simp [List.orderedInsert, hb]

theorem orderedInsert_append_of_gt {α : Type} (key : α → Int) (x : α)
    (A B : List α) (h : ∀ a ∈ A, key x < key a) :
    List.orderedInsert (fun a b => key b ≤ key a) x (A ++ B) =
      A ++ List.orderedInsert (fun a b => key b ≤ key a) x B := by
  induction A with
  | nil => simp
  | cons a t ih =>
    have ha : ¬ key a ≤ key x := not_le.mpr (h a (by simp))
    simp only [List.cons_append, List.orderedInsert, ha, if_false]
    exact congrArg (a :: ·) (ih (fun a ha2 => h a (by simp [ha2])))

theorem orderedInsert_flatGroups {α : Type} (key : α → Int)
    (S : List Int) (hS : S.Pairwise (fun a b => b < a)) (l : List α)
    (x : α) (hx : key x ∈ S) :
    List.orderedInsert (fun a b => key b ≤ key a) x (flatGroups key S l) =
      flatGroups key S (x :: l) := by
  induction S with
  | nil => cases hx
  | cons v S ih =>
    have hpair := List.pairwise_cons.mp hS
    by_cases hxv : key x = v
    · have hle : ∀ y ∈ flatGroups key (v :: S) l, key y ≤ key x := by
        intro y hy
        obtain ⟨hyS, _⟩ := mem_flatGroups key (v :: S) l y hy
        rcases List.mem_cons.mp hyS with h1 | h1
        · rw [h1, hxv]
        · exact le_of_lt (hxv ▸ hpair.1 _ h1)
      rw [orderedInsert_of_head_le key x _ hle]
      have hSx : key x ∉ S := by
        intro hmem
        exact absurd (hxv ▸ hpair.1 _ hmem) (lt_irrefl v)
      unfold flatGroups
      simp only [List.flatMap_cons]
      rw [show (x :: l).filter (fun y => decide (key y = v)) =
          x :: l.filter (fun y => decide (key y = v)) by
        simp [List.filter_cons, hxv]]
      have := flatGroups_cons_not_mem key S l x hSx
      unfold flatGroups at this
      rw [this]
      rfl
    · have hxS : key x ∈ S := by
        rcases List.mem_cons.mp hx with h1 | h1
        · exact absurd h1 hxv
        · exact h1
      unfold flatGroups
      simp only [List.flatMap_cons]
      have hgt : ∀ a ∈ l.filter (fun y => decide (key y = v)),
          key x < key a := by
        intro a ha
        have := (List.mem_filter.mp ha).2
        simp at this
        rw [this]
        exact hpair.1 _ hxS
      rw [orderedInsert_append_of_gt key x _ _ hgt]
      have ihs := ih (List.Pairwise.of_cons hS) hxS
      unfold flatGroups at ihs
      rw [ihs]
      rw [show (x :: l).filter (fun y => decide (key y = v)) =
          l.filter (fun y => decide (key y = v)) by
        simp [List.filter_cons, hxv]]

/-- A stable descending insertion sort equals the concatenation of the
equal-key groups, keys along a strictly descending level list covering
every key of the input. -/
theorem insertionSort_eq_flatGroups {α : Type} (key : α → Int)
    (S : List Int) (hS : S.Pairwise (fun a b => b < a)) (l : List α)
    (hl : ∀ x ∈ l, key x ∈ S) :
    List.insertionSort (fun a b => key b ≤ key a) l =
      flatGroups key S l := by
  induction l with
  | nil => rw [flatGroups_nil]; rfl
  | cons x l ih =>
    have : List.insertionSort (fun a b => key b ≤ key a) (x :: l) =
        List.orderedInsert (fun a b => key b ≤ key a) x
          (List.insertionSort (fun a b => key b ≤ key a) l) := rfl
    rw [this, ih (fun y hy => hl y (by simp [hy]))]
    exact orderedInsert_flatGroups key S hS l x (hl x (by simp))

/-
Specification-side form of get_stage_events for the amended C4 claim:
filter to stage-pattern matches without the run exclusion marker, score
each event, and lay the results out by descending score with ties in
encounter order.
-/

/-- An accumulated event belongs to the stage: its lowercased name holds
the stage pattern and does not hold the exclusion marker run. -/
def stageEventMatches (stage_number : Nat) (rec : RawRecord) : Bool :=
  strContains (lowerStr rec.name) ("stage " ++ toString stage_number) &&
  !(strContains (lowerStr rec.name) "run")

/-- Score of an accumulated event: plus 2 for the generic campaign marker,
minus 2 for the advanced variant, plus 3 inside the window, minus 1
outside it, zero when the timestamp is missing. -/
def stageEventScore (start_ts end_ts : Int) (rec : RawRecord) : Int :=
  (if strContains (lowerStr rec.name) "tour de zwift" then 2 else 0) +
  (if strContains (lowerStr rec.name) "advanced" then -2 else 0) +
  (if rec.timestamp ≠ 0 then
    (if start_ts ≤ rec.timestamp ∧ rec.timestamp ≤ end_ts then 3 else -1)
   else 0)

/-- Scored tuple of one accumulated event. -/
def buildStageTriple (start_ts end_ts : Int) (p : String × RawRecord) :
    String × Option Int × Int :=
  (p.1, (if p.2.timestamp ≠ 0 then some p.2.timestamp else none),
    stageEventScore start_ts end_ts p.2)

/-- Every score the code can produce, in strictly descending order. -/
def scoreLevels : List Int := [5, 4, 3, 2, 1, 0, -1, -2, -3]

/-- Specification-side stage event listing (the amended C4 property). -/
def stage_events_spec (events : List (String × RawRecord))
    (stage_number : Nat) (start_ts end_ts : Int) :
    List (String × Option Int) :=
  let m := (events.filter (fun p => stageEventMatches stage_number p.2)).map
    (buildStageTriple start_ts end_ts)
  (flatGroups (fun x => x.2.2) scoreLevels m).map (fun x => (x.1, x.2.1))

/-- The step of the matching fold appends exactly the scored tuple of a
matching event and skips a non-matching one. -/
theorem stageStep_char (n : Nat) (s e : Int)
    (acc : List (String × Option Int × Int)) (p : String × RawRecord) :
    stageStep ("stage " ++ toString n) s e acc p =
      if stageEventMatches n p.2 then acc ++ [buildStageTriple s e p]
      else acc := by
  unfold stageStep stageEventMatches buildStageTriple stageEventScore
  by_cases h1 : strContains (lowerStr p.2.name) ("stage " ++ toString n)
  · by_cases h2 : strContains (lowerStr p.2.name) "run"
    · simp [h1, h2]
    · by_cases h3 : strContains (lowerStr p.2.name) "tour de zwift" <;>
        by_cases h4 : strContains (lowerStr p.2.name) "advanced" <;>
        by_cases h5 : p.2.timestamp = 0 <;>
        simp [h1, h2, h3, h4, h5] <;>
        by_cases h6 : s ≤ p.2.timestamp ∧ p.2.timestamp ≤ e <;>
        simp [h6] <;> ring
  · simp [h1, stageStep, stageEventMatches]

/-- The matching fold is the filtered, scored projection of the input. -/
theorem stageFold_eq (n : Nat) (s e : Int)
    (events : List (String × RawRecord))
    (acc : List (String × Option Int × Int)) :
    events.foldl (stageStep ("stage " ++ toString n) s e) acc =
      acc ++ (events.filter (fun p => stageEventMatches n p.2)).map
        (buildStageTriple s e) := by
  induction events generalizing acc with
  | nil => simp
  | cons p rest ih =>
    rw [List.foldl_cons, stageStep_char, ih]
    by_cases h : stageEventMatches n p.2
    · simp [h, List.filter_cons]
    · simp [h, List.filter_cons]

/-- Every score of a scored tuple is one of the finitely many levels. -/
theorem stageEventScore_mem_levels (s e : Int) (rec : RawRecord) :
    stageEventScore s e rec ∈ scoreLevels := by
  unfold stageEventScore
  have ht : (if strContains (lowerStr rec.name) "tour de zwift" then
      (2 : Int) else 0) = 2 ∨
      (if strContains (lowerStr rec.name) "tour de zwift" then
      (2 : Int) else 0) = 0 := by
    split
    · exact Or.inl rfl
    · exact Or.inr rfl
  have ha : (if strContains (lowerStr rec.name) "advanced" then
      (-2 : Int) else 0) = -2 ∨
      (if strContains (lowerStr rec.name) "advanced" then
      (-2 : Int) else 0) = 0 := by
    split
    · exact Or.inl rfl
    · exact Or.inr rfl
  have hd : (if rec.timestamp ≠ 0 then
      (if s ≤ rec.timestamp ∧ rec.timestamp ≤ e then (3 : Int) else -1)
      else 0) = 3 ∨
      (if rec.timestamp ≠ 0 then
      (if s ≤ rec.timestamp ∧ rec.timestamp ≤ e then (3 : Int) else -1)
      else 0) = -1 ∨
      (if rec.timestamp ≠ 0 then
      (if s ≤ rec.timestamp ∧ rec.timestamp ≤ e then (3 : Int) else -1)
      else 0) = 0 := by
    by_cases h5 : rec.timestamp = 0
    · exact Or.inr (Or.inr (by simp [h5]))
    · by_cases h6 : s ≤ rec.timestamp ∧ rec.timestamp ≤ e
      · exact Or.inl (by simp [h5, h6])
      · exact Or.inr (Or.inl (by simp [h5, h6]))
  rcases ht with h1 | h1 <;> rcases ha with h2 | h2 <;>
    rcases hd with h3 | h3 | h3 <;> rw [h1, h2, h3] <;> decide

/-- C4 (amended).  Stage-event scoring: get_stage_events returns exactly
the events whose lowercased name holds the stage pattern and not the
exclusion marker run, scored plus 2 for the generic campaign marker,
plus 3 inside the window, minus 1 outside it, minus 2 for the advanced
variant and 0 for a missing timestamp, laid out by descending score with
ties in encounter order. -/
theorem C4_stage_scoring (events : List (String × RawRecord))
    (n : Nat) (s e : Int) :
    get_stage_events events n s e = stage_events_spec events n s e := by
  unfold get_stage_events stage_events_spec
  simp only [stageFold_eq, List.nil_append]
  apply congrArg (List.map (fun x : String × Option Int × Int =>
    (x.1, x.2.1)))
  apply insertionSort_eq_flatGroups (fun x : String × Option Int × Int =>
    x.2.2) scoreLevels (by decide)
  intro x hx
  rw [List.mem_map] at hx
  obtain ⟨p, _, rfl⟩ := hx
  exact stageEventScore_mem_levels s e p.2

/-
The claim-side scoring of C4 as the spec states it: minus 5 outside the
window and minus 10 for the exclusion marker run, laid out by descending
score with ties in encounter order.
-/

/-- Score levels wide enough for the claim-side scores. -/
def claimLevels : List Int := (List.range 23).map (fun i => (5 : Int) - i)

/-- Stage event listing as claim C4 words it, with minus 5 for a
timestamp outside the window and minus 10 for the run marker. -/
def stage_events_claim (events : List (String × RawRecord))
    (stage_number : Nat) (start_ts end_ts : Int) :
    List (String × Option Int) :=
  let pat := "stage " ++ toString stage_number
  let m := (events.filter (fun p =>
      strContains (lowerStr p.2.name) pat)).map (fun p =>
    (p.1, (if p.2.timestamp ≠ 0 then some p.2.timestamp else none :
      Option Int),
      (if strContains (lowerStr p.2.name) "tour de zwift" then (2 : Int)
        else 0) +
      (if p.2.timestamp ≠ 0 then
        (if start_ts ≤ p.2.timestamp ∧ p.2.timestamp ≤ end_ts then
          (3 : Int) else -5) else 0) +
      (if strContains (lowerStr p.2.name) "advanced" then (-2 : Int)
        else 0) +
      (if strContains (lowerStr p.2.name) "run" then (-10 : Int) else 0)))
  (flatGroups (fun x => x.2.2) claimLevels m).map (fun x => (x.1, x.2.1))

/-- C4 counterexample.  On two concrete accumulated events the code
disagrees with the claimed scoring: an out-of-window campaign event is
scored 1 by the code (2 minus 1) but minus 3 by the claim (2 minus 5),
so the code ranks it above a timestamp-less event while the claim ranks
it below. -/
theorem C4_stage_scoring_counterexample :
    get_stage_events
      [("1", ⟨"1", "Tour de Zwift Stage 1", 999, "", "",
        ⟨"", "", "", "", "", "", 0, 0, "", ""⟩⟩),
       ("2", ⟨"2", "Stage 1 b", 0, "", "",
        ⟨"", "", "", "", "", "", 0, 0, "", ""⟩⟩)] 1 100 200 ≠
    stage_events_claim
      [("1", ⟨"1", "Tour de Zwift Stage 1", 999, "", "",
        ⟨"", "", "", "", "", "", 0, 0, "", ""⟩⟩),
       ("2", ⟨"2", "Stage 1 b", 0, "", "",
        ⟨"", "", "", "", "", "", 0, 0, "", ""⟩⟩)] 1 100 200 := by decide

/-
Checkpoint state: src/discovery/checkpoint.py.
-/

/-- One value of the events_discovered mapping: event name, timestamp and
the accumulated list of stage numbers. -/
structure EventInfo where
  event_name : String
  timestamp : Int
  stage_numbers : List String
deriving DecidableEq

/-- DiscoveryCheckpoint (src/discovery/checkpoint.py lines 17-143), with
the default field values of the dataclass. -/
structure Checkpoint where
  phase : String := "discover_riders"
  riders_processed : List String := []
  events_discovered : List (String × EventInfo) := []
  events_fetched : List String := []
  last_updated : String := ""
  run_count : Nat := 0
  started_at : String := ""
  completed_at : String := ""
  stage_numbers : List String := []
  tour_id : String := ""
deriving DecidableEq

/-- The serialized form written by to_dict; every key is always present,
so the dictionary has the same shape as the checkpoint itself. -/
structure CheckpointData where
  phase : String
  riders_processed : List String
  events_discovered : List (String × EventInfo)
  events_fetched : List String
  last_updated : String
  run_count : Nat
  started_at : String
  completed_at : String
  stage_numbers : List String
  tour_id : String
deriving DecidableEq

/-- DiscoveryCheckpoint.to_dict. -/
def Checkpoint.to_dict (c : Checkpoint) : CheckpointData :=
  ⟨c.phase, c.riders_processed, c.events_discovered, c.events_fetched,
   c.last_updated, c.run_count, c.started_at, c.completed_at,
   c.stage_numbers, c.tour_id⟩

/-- DiscoveryCheckpoint.from_dict; the defaults of data.get never fire on
a dictionary produced by to_dict since that dictionary is total. -/
def Checkpoint.from_dict (d : CheckpointData) : Checkpoint :=
  { phase := d.phase, riders_processed := d.riders_processed,
    events_discovered := d.events_discovered,
    events_fetched := d.events_fetched, last_updated := d.last_updated,
    run_count := d.run_count, started_at := d.started_at,
    completed_at := d.completed_at, stage_numbers := d.stage_numbers,
    tour_id := d.tour_id }

/-- A serialize-reload cycle of the checkpoint between batches. -/
def roundtrip (c : Checkpoint) : Checkpoint := Checkpoint.from_dict c.to_dict

theorem roundtrip_id (c : Checkpoint) : roundtrip c = c := rfl

/-- DiscoveryCheckpoint.is_expired (checkpoint.py lines 73-83).
The iso-format parser and the current time are abstract parameters;
parseIso returns none when datetime.fromisoformat would raise.  The TTL
of 24 hours is 86400 seconds. -/
def Checkpoint.is_expired (c : Checkpoint)
    (parseIso : String → Option Int) (now : Int) : Bool :=
  if c.completed_at = "" then false
  else
    match parseIso c.completed_at with
    | some completed_ts => decide (now > completed_ts + 24 * 3600)
    | none => false

/-- A rider dict with id and name, as built by the handler. -/
structure Rider where
  id : String
  name : String
deriving DecidableEq

/-- DiscoveryCheckpoint.get_pending_riders. -/
def Checkpoint.get_pending_riders (c : Checkpoint)
    (all_riders : List Rider) : List Rider :=
  all_riders.filter (fun r => decide (r.id ∉ c.riders_processed))

/-- DiscoveryCheckpoint.get_pending_events. -/
def Checkpoint.get_pending_events (c : Checkpoint) : List String :=
  (keysOf c.events_discovered).filter
    (fun event_id => decide (event_id ∉ c.events_fetched))

/-- DiscoveryCheckpoint.mark_rider_processed. -/
def Checkpoint.mark_rider_processed (c : Checkpoint) (rider_id : String) :
    Checkpoint :=
  if rider_id ∈ c.riders_processed then c
  else { c with riders_processed := c.riders_processed ++ [rider_id] }

/-- DiscoveryCheckpoint.add_discovered_event (checkpoint.py lines
104-123). -/
def Checkpoint.add_discovered_event (c : Checkpoint) (event_id : String)
    (event_name : String) (timestamp : Int) (stage_number : String) :
    Checkpoint :=
  if event_id ∉ keysOf c.events_discovered then
    { c with events_discovered := c.events_discovered ++
        [(event_id, ⟨event_name, timestamp, [stage_number]⟩)] }
  else
    { c with events_discovered := updA event_id (fun info =>
        if stage_number ∈ info.stage_numbers then info
        else { info with stage_numbers :=
          info.stage_numbers ++ [stage_number] }) c.events_discovered }

/-- DiscoveryCheckpoint.mark_event_fetched. -/
def Checkpoint.mark_event_fetched (c : Checkpoint) (event_id : String) :
    Checkpoint :=
  if event_id ∈ c.events_fetched then c
  else { c with events_fetched := c.events_fetched ++ [event_id] }

/-- DiscoveryCheckpoint.update_timestamp; the current iso time is a
parameter. -/
def Checkpoint.update_timestamp (c : Checkpoint) (now_iso : String) :
    Checkpoint :=
  { c with last_updated := now_iso }

/-- DiscoveryCheckpoint.increment_run_count. -/
def Checkpoint.increment_run_count (c : Checkpoint) (now_iso : String) :
    Checkpoint :=
  let c1 := { c with run_count := c.run_count + 1 }
  if c1.started_at = "" then { c1 with started_at := now_iso } else c1

/-- DiscoveryCheckpoint.mark_complete. -/
def Checkpoint.mark_complete (c : Checkpoint) (now_iso : String) :
    Checkpoint :=
  { c with phase := "complete", completed_at := now_iso }

/-- CheckpointManager.load (checkpoint.py lines 178-214) restricted to a
successful transport: stored carries the object found at the checkpoint
key, none when S3 answers NoSuchKey. -/
def load_model (stored : Option CheckpointData)
    (parseIso : String → Option Int) (now : Int) : Checkpoint :=
  match stored with
  | none => {}
  | some d =>
    let checkpoint := Checkpoint.from_dict d
    if checkpoint.is_expired parseIso now then {} else checkpoint

/-- C10.  A checkpoint whose completed_at is empty or not parseable as an
iso timestamp is never expired, and load returns such a stored checkpoint
unchanged, no matter how old last_updated or started_at are. -/
theorem C10_unparseable_never_expired (c : Checkpoint)
    (parseIso : String → Option Int) (now : Int)
    (h : c.completed_at = "" ∨ parseIso c.completed_at = none) :
    c.is_expired parseIso now = false ∧
    load_model (some c.to_dict) parseIso now = c := by
  have hexp : c.is_expired parseIso now = false := by
    unfold Checkpoint.is_expired
    rcases h with h | h
    · simp [h]
    · by_cases h0 : c.completed_at = ""
      · simp [h0]
      · simp [h0, h]
  refine ⟨hexp, ?_⟩
  unfold load_model
  have hrt : Checkpoint.from_dict c.to_dict = c := rfl
  simp only [hrt, hexp]
  simp

/-- C10 witness: a concrete never-completed checkpoint with an old
last_updated survives load under a parser that fails on everything. -/
theorem C10_unparseable_never_expired_witness :
    (("" : String) = "" ∨ (fun _ : String => (none : Option Int)) "" = none) ∧
    ((Checkpoint.is_expired
        { phase := "fetch_results", riders_processed := ["1"],
          last_updated := "1999-01-01T00:00:00+00:00",
          started_at := "1999-01-01T00:00:00+00:00", run_count := 3 }
        (fun _ => none) 2000000000 = false) ∧
      load_model (some (Checkpoint.to_dict
        { phase := "fetch_results", riders_processed := ["1"],
          last_updated := "1999-01-01T00:00:00+00:00",
          started_at := "1999-01-01T00:00:00+00:00", run_count := 3 }))
        (fun _ => none) 2000000000 =
        { phase := "fetch_results", riders_processed := ["1"],
          last_updated := "1999-01-01T00:00:00+00:00",
          started_at := "1999-01-01T00:00:00+00:00", run_count := 3 }) :=
  ⟨Or.inl rfl, C10_unparseable_never_expired _ _ _ (Or.inl rfl)⟩

/-
Rider history scanning: src/discovery/batch_processor.py.
-/

/-- One entry of a rider history payload, with every field name the code
probes (event_title, f_t, name, event_date, tm, zid, event_id,
DT_RowId). -/
structure HistEntry where
  event_title : String
  f_t : String
  name : String
  event_date : Int
  tm : Int
  zid : String
  event_id : String
  row_id : String
deriving DecidableEq

/-- One stage info dict as built by build_stages_info: the stage number
and the parsed start and end datetimes as Unix timestamps. -/
structure StageInfo where
  number : String
  start_date : Int
  end_date : Int
deriving DecidableEq

/-- is_in_stage_range (batch_processor.py lines 52-65): false on a missing
timestamp, else boundary-inclusive containment. -/
def is_in_stage_range (event_timestamp stage_start stage_end : Int) :
    Bool :=
  if event_timestamp = 0 then false
  else decide (stage_start ≤ event_timestamp ∧
    event_timestamp ≤ stage_end)

/-- Field-fallback chain for the event name of a history entry. -/
def entryName (result : HistEntry) : String :=
  strOr result.event_title (strOr result.f_t result.name)

/-- Field-fallback chain for the timestamp of a history entry. -/
def entryTs (result : HistEntry) : Int :=
  intOr result.event_date result.tm

/-- Field-fallback chain for the event id of a history entry. -/
def entryId (result : HistEntry) : String :=
  strOr result.zid (strOr result.event_id result.row_id)

/-- The body of the stage loop of process_rider: record the discovery
against the stage when the timestamp falls in its range, and count it. -/
def stageRangeStep (event_id event_name : String) (event_timestamp : Int)
    (acc2 : Checkpoint × Nat) (stage : StageInfo) : Checkpoint × Nat :=
  if is_in_stage_range event_timestamp stage.start_date stage.end_date then
    (acc2.1.add_discovered_event event_id event_name event_timestamp
      stage.number, acc2.2 + 1)
  else acc2

/-- The body of the history loop of process_rider for one entry,
threading the checkpoint and the events_found counter. -/
def processEntry (stages : List StageInfo) (acc : Checkpoint × Nat)
    (result : HistEntry) : Checkpoint × Nat :=
  let event_name := entryName result
  if strContains (lowerStr event_name) "tour de zwift" = false then acc
  else
    let event_timestamp := entryTs result
    let event_id := entryId result
    if event_id = "" then acc
    else
      stages.foldl (stageRangeStep event_id event_name event_timestamp) acc

/-- BatchDiscoveryProcessor.process_rider (batch_processor.py lines
97-183).  The history fetch is the deterministic hist function; the
result triple is the updated checkpoint, the events_found return value,
and the number of upstream history calls performed (0 or 1).  A failing
fetch is modelled inside hist as an empty history, matching
get_rider_race_history which catches every exception. -/
def process_rider (stages : List StageInfo)
    (hist : String → List HistEntry) (rider : Rider)
    (checkpoint : Checkpoint) : Checkpoint × Nat × Nat :=
  let rider_id := rider.id
  if rider_id = "" then (checkpoint, 0, 0)
  else if rider_id ∈ checkpoint.riders_processed then (checkpoint, 0, 0)
  else
    let history := hist rider_id
    let res := history.foldl (processEntry stages) (checkpoint, 0)
    (res.1.mark_rider_processed rider_id, res.2, 1)

/-- BatchDiscoveryProcessor.process_batch. -/
def process_batch (stages : List StageInfo)
    (hist : String → List HistEntry) (riders : List Rider)
    (checkpoint : Checkpoint) : Checkpoint × Nat × Nat :=
  riders.foldl (fun acc rider =>
    let r := process_rider stages hist rider acc.1
    (r.1, acc.2.1 + 1, acc.2.2 + r.2.1)) (checkpoint, 0, 0)

/-- BatchDiscoveryProcessor.process_next_batch (batch_processor.py lines
210-247); the inter-batch sleep has no state effect and is dropped.
Returns the updated checkpoint and the (more_work, riders_processed,
events_discovered) triple. -/
def process_next_batch (stages : List StageInfo)
    (hist : String → List HistEntry) (batch_size : Nat)
    (all_riders : List Rider) (checkpoint : Checkpoint) :
    Checkpoint × Bool × Nat × Nat :=
  let pending := checkpoint.get_pending_riders all_riders
  if pending.isEmpty then (checkpoint, false, 0, 0)
  else
    let batch := pending.take batch_size
    let res := process_batch stages hist batch checkpoint
    (res.1, decide (batch.length < pending.length), res.2.1, res.2.2)

-- Association list lemmas used by the checkpoint proofs.

theorem lookup_eq_none_of_not_mem {α : Type} (l : List (String × α))
    (k : String) (h : k ∉ keysOf l) : List.lookup k l = none := by
  induction l with
  | nil => rfl
  | cons p t ih =>
    have h1 : ¬ k = p.1 := fun he => h (by simp [keysOf, he])
    have h2 : k ∉ keysOf t := fun he => h (by simp [keysOf] at he ⊢; exact Or.inr he)
    simp only [List.lookup, beq_false_of_ne h1]
    exact ih h2

theorem lookup_append_right_of_not_mem {α : Type}
    (l1 l2 : List (String × α)) (k : String) (h : k ∉ keysOf l1) :
    List.lookup k (l1 ++ l2) = List.lookup k l2 := by
  induction l1 with
  | nil => rfl
  | cons p t ih =>
    have h1 : ¬ k = p.1 := fun he => h (by simp [keysOf, he])
    have h2 : k ∉ keysOf t := fun he => h (by simp [keysOf] at he ⊢; exact Or.inr he)
    simp only [List.cons_append, List.lookup, beq_false_of_ne h1]
    exact ih h2

theorem mem_keys_of_lookup {α : Type} (l : List (String × α)) (k : String)
    (v : α) (h : List.lookup k l = some v) : k ∈ keysOf l := by
  by_contra hmem
  rw [lookup_eq_none_of_not_mem l k hmem] at h
  cases h

theorem updA_keys {α : Type} (k : String) (f : α → α)
    (l : List (String × α)) : keysOf (updA k f l) = keysOf l := by
  unfold keysOf updA
  rw [List.map_map]
  apply List.map_congr_left
  intro p _
  by_cases h : p.1 = k <;> simp [h]

theorem updA_lookup_self {α : Type} (k : String) (f : α → α)
    (l : List (String × α)) :
    List.lookup k (updA k f l) = (List.lookup k l).map f := by
  induction l with
  | nil => rfl
  | cons p t ih =>
    rcases p with ⟨k1, v1⟩
    simp only [updA, List.map_cons]
    by_cases h : k1 = k
    · rw [if_pos (show (k1, v1).1 = k from h)]
      have hbeq : (k == k1) = true := beq_iff_eq.mpr h.symm
      simp only [List.lookup, hbeq]
      rfl
    · rw [if_neg (show ¬ (k1, v1).1 = k from h)]
      have hbeq : (k == k1) = false := beq_false_of_ne (fun he => h he.symm)
      simp only [List.lookup, hbeq]
      exact ih

-- Small characterizations of the checkpoint mutators.

theorem mark_rider_events (c : Checkpoint) (rid : String) :
    (c.mark_rider_processed rid).events_discovered =
      c.events_discovered := by
  unfold Checkpoint.mark_rider_processed
  split <;> rfl

theorem mark_rider_fetched (c : Checkpoint) (rid : String) :
    (c.mark_rider_processed rid).events_fetched = c.events_fetched := by
  unfold Checkpoint.mark_rider_processed
  split <;> rfl

theorem mark_rider_mem (c : Checkpoint) (rid : String) :
    rid ∈ (c.mark_rider_processed rid).riders_processed := by
  unfold Checkpoint.mark_rider_processed
  by_cases h : rid ∈ c.riders_processed
  · simpa [h]
  · simp [h]

theorem mark_rider_mono (c : Checkpoint) (rid a : String)
    (h : a ∈ c.riders_processed) :
    a ∈ (c.mark_rider_processed rid).riders_processed := by
  unfold Checkpoint.mark_rider_processed
  by_cases h2 : rid ∈ c.riders_processed
  · simpa [h2]
  · simp [h2, h]

theorem add_discovered_riders (c : Checkpoint) (eid nm : String) (ts : Int)
    (sn : String) :
    (c.add_discovered_event eid nm ts sn).riders_processed =
      c.riders_processed := by
  unfold Checkpoint.add_discovered_event
  split <;> rfl

theorem add_discovered_fetched (c : Checkpoint) (eid nm : String)
    (ts : Int) (sn : String) :
    (c.add_discovered_event eid nm ts sn).events_fetched =
      c.events_fetched := by
  unfold Checkpoint.add_discovered_event
  split <;> rfl

theorem add_discovered_new (c : Checkpoint) (eid nm : String) (ts : Int)
    (sn : String) (h : eid ∉ keysOf c.events_discovered) :
    (c.add_discovered_event eid nm ts sn).events_discovered =
      c.events_discovered ++ [(eid, ⟨nm, ts, [sn]⟩)] := by
  unfold Checkpoint.add_discovered_event
  simp [h]

theorem add_discovered_existing (c : Checkpoint) (eid nm : String)
    (ts : Int) (sn : String) (h : eid ∈ keysOf c.events_discovered) :
    (c.add_discovered_event eid nm ts sn).events_discovered =
      updA eid (fun info =>
        if sn ∈ info.stage_numbers then info
        else { info with stage_numbers :=
          info.stage_numbers ++ [sn] }) c.events_discovered := by
  unfold Checkpoint.add_discovered_event
  simp [h]

theorem add_discovered_keys_mono (c : Checkpoint) (eid nm : String)
    (ts : Int) (sn : String) (k : String)
    (h : k ∈ keysOf c.events_discovered) :
    k ∈ keysOf (c.add_discovered_event eid nm ts sn).events_discovered := by
  by_cases hmem : eid ∈ keysOf c.events_discovered
  · rw [add_discovered_existing c eid nm ts sn hmem, updA_keys]
    exact h
  · rw [add_discovered_new c eid nm ts sn hmem, keysOf_append]
    exact List.mem_append_left _ h

/-- Accumulate a stage number into a list only when absent; the in-place
update of add_discovered_event on the stage list. -/
def insertUnique (acc : List String) (s : String) : List String :=
  if s ∈ acc then acc else acc ++ [s]

theorem foldl_insertUnique_nodup (l : List String) :
    ∀ acc : List String, acc.Nodup → (l.foldl insertUnique acc).Nodup := by
  induction l with
  | nil => exact fun acc h => h
  | cons s t ih =>
    intro acc h
    rw [List.foldl_cons]
    apply ih
    unfold insertUnique
    by_cases hs : s ∈ acc
    · simpa [hs]
    · simp [hs, List.nodup_append, h]

theorem insertUnique_mem (acc : List String) (s a : String) :
    a ∈ insertUnique acc s ↔ a ∈ acc ∨ a = s := by
  unfold insertUnique
  by_cases hs : s ∈ acc
  · rw [if_pos hs]
    constructor
    · exact Or.inl
    · rintro (h | rfl)
      · exact h
      · exact hs
  · rw [if_neg hs]
    simp

theorem foldl_insertUnique_mem (l : List String) :
    ∀ (acc : List String) (a : String),
      a ∈ l.foldl insertUnique acc ↔ a ∈ acc ∨ a ∈ l := by
  induction l with
  | nil => simp
  | cons s t ih =>
    intro acc a
    rw [List.foldl_cons, ih, insertUnique_mem]
    simp only [List.mem_cons]
    tauto

/-- Fold of add_discovered_event over a list of stage numbers. -/
def addFold (eid nm : String) (ts : Int) (ns : List String)
    (c : Checkpoint) : Checkpoint :=
  ns.foldl (fun c2 sn => c2.add_discovered_event eid nm ts sn) c

theorem addFold_upd (eid nm : String) (ts : Int) (ns : List String) :
    ∀ (c : Checkpoint) (info : EventInfo),
      List.lookup eid c.events_discovered = some info →
      List.lookup eid (addFold eid nm ts ns c).events_discovered =
        some ⟨info.event_name, info.timestamp,
          ns.foldl insertUnique info.stage_numbers⟩ ∧
      keysOf (addFold eid nm ts ns c).events_discovered =
        keysOf c.events_discovered := by
  induction ns with
  | nil =>
    intro c info h
    exact ⟨h, rfl⟩
  | cons s t ih =>
    intro c info h
    have hmem : eid ∈ keysOf c.events_discovered :=
      mem_keys_of_lookup _ _ _ h
    have hstep := add_discovered_existing c eid nm ts s hmem
    have hlook : List.lookup eid
        (c.add_discovered_event eid nm ts s).events_discovered =
        some (if s ∈ info.stage_numbers then info
          else { info with stage_numbers :=
            info.stage_numbers ++ [s] }) := by
      rw [hstep, updA_lookup_self, h]
      rfl
    have hlook2 : List.lookup eid
        (c.add_discovered_event eid nm ts s).events_discovered =
        some ⟨info.event_name, info.timestamp,
          insertUnique info.stage_numbers s⟩ := by
      rw [hlook]
      unfold insertUnique
      by_cases hs : s ∈ info.stage_numbers
      · simp [hs]
      · simp [hs]
    have hrec := ih (c.add_discovered_event eid nm ts s)
      ⟨info.event_name, info.timestamp, insertUnique info.stage_numbers s⟩
      hlook2
    have hcons : addFold eid nm ts (s :: t) c =
      addFold eid nm ts t (c.add_discovered_event eid nm ts s) := rfl
    refine ⟨?_, ?_⟩
    · rw [hcons, hrec.1]
      rfl
    · rw [hcons, hrec.2, hstep, updA_keys]

theorem addFold_new (eid nm : String) (ts : Int) (ns : List String)
    (c : Checkpoint) (h : eid ∉ keysOf c.events_discovered)
    (hne : ns ≠ []) :
    List.lookup eid (addFold eid nm ts ns c).events_discovered =
      some ⟨nm, ts, ns.foldl insertUnique []⟩ ∧
    keysOf (addFold eid nm ts ns c).events_discovered =
      keysOf c.events_discovered ++ [eid] := by
  cases ns with
  | nil => exact absurd rfl hne
  | cons s t =>
    have hstep := add_discovered_new c eid nm ts s h
    have hlook : List.lookup eid
        (c.add_discovered_event eid nm ts s).events_discovered =
        some ⟨nm, ts, [s]⟩ := by
      rw [hstep, lookup_append_right_of_not_mem _ _ _ h]
      simp [List.lookup]
    have hins : ([s] : List String) = insertUnique [] s := by
      unfold insertUnique
      simp
    have hrec := addFold_upd eid nm ts t
      (c.add_discovered_event eid nm ts s) ⟨nm, ts, [s]⟩ hlook
    constructor
    · have : addFold eid nm ts (s :: t) c =
        addFold eid nm ts t (c.add_discovered_event eid nm ts s) := rfl
      rw [this, hrec.1, hins]
      rfl
    · have : addFold eid nm ts (s :: t) c =
        addFold eid nm ts t (c.add_discovered_event eid nm ts s) := rfl
      rw [this, hrec.2, hstep, keysOf_append]
      rfl

/-- The stage loop of process_rider equals the add fold over the stages
whose range holds the timestamp, in order. -/
theorem stageFold_fst (eid nm : String) (ts : Int)
    (stages : List StageInfo) :
    ∀ acc : Checkpoint × Nat,
      (stages.foldl (stageRangeStep eid nm ts) acc).1 =
        addFold eid nm ts ((stages.filter (fun st =>
          is_in_stage_range ts st.start_date st.end_date)).map
            (fun st => st.number)) acc.1 := by
  induction stages with
  | nil => intro acc; rfl
  | cons st t ih =>
    intro acc
    rw [List.foldl_cons]
    by_cases h : is_in_stage_range ts st.start_date st.end_date
    · rw [show stageRangeStep eid nm ts acc st =
        (acc.1.add_discovered_event eid nm ts st.number, acc.2 + 1) by
          unfold stageRangeStep; rw [if_pos h]]
      rw [ih]
      simp only [List.filter_cons, h, List.map_cons]
      rfl
    · rw [show stageRangeStep eid nm ts acc st = acc by
        unfold stageRangeStep; rw [if_neg h]]
      rw [ih]
      have hb : is_in_stage_range ts st.start_date st.end_date = false :=
        Bool.eq_false_iff.mpr h
      simp [List.filter_cons, hb]

-- Lemmas about process_rider for the idempotent-skip claim.

theorem process_rider_skip (stages : List StageInfo)
    (hist : String → List HistEntry) (rider : Rider) (cp : Checkpoint)
    (h : rider.id ∈ cp.riders_processed) :
    process_rider stages hist rider cp = (cp, 0, 0) := by
  unfold process_rider
  by_cases hid : rider.id = ""
  · rw [if_pos hid]
  · rw [if_neg hid, if_pos h]

theorem addFold_riders (eid nm : String) (ts : Int) (ns : List String) :
    ∀ c : Checkpoint,
      (addFold eid nm ts ns c).riders_processed = c.riders_processed := by
  induction ns with
  | nil => intro c; rfl
  | cons s t ih =>
    intro c
    have hcons : addFold eid nm ts (s :: t) c =
      addFold eid nm ts t (c.add_discovered_event eid nm ts s) := rfl
    rw [hcons, ih, add_discovered_riders]

theorem addFold_fetched (eid nm : String) (ts : Int) (ns : List String) :
    ∀ c : Checkpoint,
      (addFold eid nm ts ns c).events_fetched = c.events_fetched := by
  induction ns with
  | nil => intro c; rfl
  | cons s t ih =>
    intro c
    have hcons : addFold eid nm ts (s :: t) c =
      addFold eid nm ts t (c.add_discovered_event eid nm ts s) := rfl
    rw [hcons, ih, add_discovered_fetched]

theorem processEntry_riders (stages : List StageInfo)
    (acc : Checkpoint × Nat) (entry : HistEntry) :
    (processEntry stages acc entry).1.riders_processed =
      acc.1.riders_processed := by
  unfold processEntry
  by_cases h1 : strContains (lowerStr (entryName entry))
      "tour de zwift" = false
  · rw [if_pos h1]
  · rw [if_neg h1]
    by_cases h2 : entryId entry = ""
    · rw [if_pos h2]
    · rw [if_neg h2, stageFold_fst, addFold_riders]

theorem histFold_riders (stages : List StageInfo)
    (history : List HistEntry) :
    ∀ acc : Checkpoint × Nat,
      (history.foldl (processEntry stages) acc).1.riders_processed =
        acc.1.riders_processed := by
  induction history with
  | nil => intro acc; rfl
  | cons entry t ih =>
    intro acc
    rw [List.foldl_cons, ih, processEntry_riders]

theorem process_rider_marks (stages : List StageInfo)
    (hist : String → List HistEntry) (rider : Rider) (cp : Checkpoint)
    (h : rider.id ≠ "") :
    rider.id ∈ (process_rider stages hist rider cp).1.riders_processed := by
  unfold process_rider
  by_cases hp : rider.id ∈ cp.riders_processed
  · rw [if_neg h, if_pos hp]
    exact hp
  · rw [if_neg h, if_neg hp]
    exact mark_rider_mem _ _

theorem process_rider_calls_le (stages : List StageInfo)
    (hist : String → List HistEntry) (rider : Rider) (cp : Checkpoint) :
    (process_rider stages hist rider cp).2.2 ≤ 1 := by
  unfold process_rider
  by_cases hid : rider.id = ""
  · rw [if_pos hid]
    exact Nat.zero_le 1
  · rw [if_neg hid]
    by_cases hp : rider.id ∈ cp.riders_processed
    · rw [if_pos hp]
      exact Nat.zero_le 1
    · rw [if_neg hp]

/-- C8 (amended).  Idempotent skip: calling process_rider a second time
with the same rider against the already-updated checkpoint performs no
upstream call, changes nothing and returns 0; the two calls together
perform at most one upstream history call, and exactly one when the
rider has a nonempty id not yet marked processed.  (The unqualified
claim that exactly one call always happens fails when the rider is
already processed or has no id; see the counterexample.) -/
theorem C8_idempotent_skip (stages : List StageInfo)
    (hist : String → List HistEntry) (rider : Rider)
    (checkpoint : Checkpoint) :
    process_rider stages hist rider
        (process_rider stages hist rider checkpoint).1 =
      ((process_rider stages hist rider checkpoint).1, 0, 0) ∧
    (process_rider stages hist rider checkpoint).2.2 +
      (process_rider stages hist rider
        (process_rider stages hist rider checkpoint).1).2.2 ≤ 1 ∧
    (rider.id ≠ "" ∧ rider.id ∉ checkpoint.riders_processed →
      (process_rider stages hist rider checkpoint).2.2 = 1) := by
  have hsecond : process_rider stages hist rider
      (process_rider stages hist rider checkpoint).1 =
      ((process_rider stages hist rider checkpoint).1, 0, 0) := by
    by_cases hid : rider.id = ""
    · unfold process_rider
      rw [if_pos hid, if_pos hid]
    · exact process_rider_skip stages hist rider _
        (process_rider_marks stages hist rider checkpoint hid)
  refine ⟨hsecond, ?_, ?_⟩
  · rw [hsecond]
    exact Nat.add_le_of_le_sub (Nat.zero_le 1)
      (process_rider_calls_le stages hist rider checkpoint) |>.trans
      (Nat.le_refl 1) |>.trans (Nat.le_refl 1)
  · rintro ⟨hid, hp⟩
    unfold process_rider
    rw [if_neg hid, if_neg hp]

/-- C8 witness: a fresh rider with a nonempty id: the first call makes
exactly one upstream call, the second is a pure no-op. -/
theorem C8_idempotent_skip_witness :
    (process_rider [] (fun _ => []) ⟨"r1", "n"⟩ {}).2.2 = 1 ∧
    process_rider [] (fun _ => []) ⟨"r1", "n"⟩
        (process_rider [] (fun _ => []) ⟨"r1", "n"⟩ {}).1 =
      ((process_rider [] (fun _ => []) ⟨"r1", "n"⟩ {}).1, 0, 0) :=
  ⟨(C8_idempotent_skip [] (fun _ => []) ⟨"r1", "n"⟩ {}).2.2
      ⟨by decide, by decide⟩,
   (C8_idempotent_skip [] (fun _ => []) ⟨"r1", "n"⟩ {}).1⟩

/-- C8 counterexample.  The claim as stated quantifies over every
checkpoint: with a checkpoint that already holds the rider id, the two
calls together perform zero upstream calls, not exactly one. -/
theorem C8_idempotent_skip_counterexample :
    ¬((process_rider [] (fun _ => []) ⟨"9", "x"⟩
        { riders_processed := ["9"] }).2.2 +
      (process_rider [] (fun _ => []) ⟨"9", "x"⟩
        (process_rider [] (fun _ => []) ⟨"9", "x"⟩
          { riders_processed := ["9"] }).1).2.2 = 1) := by decide

/-- C9.  Stage-overlap accumulation: one history entry whose timestamp
lies in the (boundary-inclusive) windows of one or more stages produces
exactly one new record in events_discovered, holding every matched stage
number exactly once, in match order. -/
theorem C9_stage_overlap (stages : List StageInfo)
    (hist : String → List HistEntry) (rider : Rider) (cp : Checkpoint)
    (entry : HistEntry)
    (hid : rider.id ≠ "") (hp : rider.id ∉ cp.riders_processed)
    (hh : hist rider.id = [entry])
    (hname : strContains (lowerStr (entryName entry)) "tour de zwift" =
      true)
    (heid : entryId entry ≠ "")
    (hnew : entryId entry ∉ keysOf cp.events_discovered)
    (hmatch : (stages.filter (fun st => is_in_stage_range (entryTs entry)
      st.start_date st.end_date)).map (fun st => st.number) ≠ []) :
    List.lookup (entryId entry)
        (process_rider stages hist rider cp).1.events_discovered =
      some ⟨entryName entry, entryTs entry,
        ((stages.filter (fun st => is_in_stage_range (entryTs entry)
          st.start_date st.end_date)).map (fun st => st.number)).foldl
            insertUnique []⟩ ∧
    keysOf (process_rider stages hist rider cp).1.events_discovered =
      keysOf cp.events_discovered ++ [entryId entry] ∧
    (((stages.filter (fun st => is_in_stage_range (entryTs entry)
        st.start_date st.end_date)).map (fun st => st.number)).foldl
          insertUnique []).Nodup ∧
    (∀ sn, sn ∈ ((stages.filter (fun st => is_in_stage_range
        (entryTs entry) st.start_date st.end_date)).map
          (fun st => st.number)).foldl insertUnique [] ↔
      sn ∈ (stages.filter (fun st => is_in_stage_range (entryTs entry)
        st.start_date st.end_date)).map (fun st => st.number)) := by
  have hpr : (process_rider stages hist rider cp).1 =
      ((processEntry stages (cp, 0) entry).1).mark_rider_processed
        rider.id := by
    simp only [process_rider, hh]
    rw [if_neg hid, if_neg hp]
    rfl
  have hpe : (processEntry stages (cp, 0) entry).1 =
      addFold (entryId entry) (entryName entry) (entryTs entry)
        ((stages.filter (fun st => is_in_stage_range (entryTs entry)
          st.start_date st.end_date)).map (fun st => st.number)) cp := by
    simp only [processEntry]
    rw [if_neg (by simp [hname]), if_neg heid, stageFold_fst]
  have hchar := addFold_new (entryId entry) (entryName entry)
    (entryTs entry) ((stages.filter (fun st => is_in_stage_range
      (entryTs entry) st.start_date st.end_date)).map
        (fun st => st.number)) cp hnew hmatch
  refine ⟨?_, ?_, ?_, ?_⟩
  · rw [hpr, mark_rider_events, hpe]
    exact hchar.1
  · rw [hpr, mark_rider_events, hpe]
    exact hchar.2
  · exact foldl_insertUnique_nodup _ [] List.nodup_nil
  · intro sn
    rw [foldl_insertUnique_mem]
    simp

/-- C9 witness: an entry at 175 inside both the window 100 to 200 of
stage 1 and the window 150 to 250 of stage 2 yields one record holding
both stage numbers. -/
theorem C9_stage_overlap_witness :
    List.lookup (entryId ⟨"Tour de Zwift Stage 1", "", "", 175, 0, "e1",
        "", ""⟩)
        (process_rider [⟨"1", 100, 200⟩, ⟨"2", 150, 250⟩]
          (fun _ => [⟨"Tour de Zwift Stage 1", "", "", 175, 0, "e1",
            "", ""⟩]) ⟨"r1", "n"⟩ {}).1.events_discovered =
      some ⟨entryName ⟨"Tour de Zwift Stage 1", "", "", 175, 0, "e1",
          "", ""⟩,
        entryTs ⟨"Tour de Zwift Stage 1", "", "", 175, 0, "e1", "", ""⟩,
        ((([⟨"1", 100, 200⟩, ⟨"2", 150, 250⟩] : List StageInfo).filter
          (fun st => is_in_stage_range (entryTs ⟨"Tour de Zwift Stage 1",
            "", "", 175, 0, "e1", "", ""⟩) st.start_date
              st.end_date)).map (fun st => st.number)).foldl
          insertUnique []⟩ ∧
    keysOf (process_rider [⟨"1", 100, 200⟩, ⟨"2", 150, 250⟩]
        (fun _ => [⟨"Tour de Zwift Stage 1", "", "", 175, 0, "e1",
          "", ""⟩]) ⟨"r1", "n"⟩ {}).1.events_discovered =
      keysOf ({} : Checkpoint).events_discovered ++
        [entryId ⟨"Tour de Zwift Stage 1", "", "", 175, 0, "e1", "", ""⟩] :=
  ⟨(C9_stage_overlap [⟨"1", 100, 200⟩, ⟨"2", 150, 250⟩]
      (fun _ => [⟨"Tour de Zwift Stage 1", "", "", 175, 0, "e1", "", ""⟩])
      ⟨"r1", "n"⟩ {} ⟨"Tour de Zwift Stage 1", "", "", 175, 0, "e1",
        "", ""⟩
      (by decide) (by decide) rfl (by decide) (by decide) (by decide)
      (by decide)).1,
   (C9_stage_overlap [⟨"1", 100, 200⟩, ⟨"2", 150, 250⟩]
      (fun _ => [⟨"Tour de Zwift Stage 1", "", "", 175, 0, "e1", "", ""⟩])
      ⟨"r1", "n"⟩ {} ⟨"Tour de Zwift Stage 1", "", "", 175, 0, "e1",
        "", ""⟩
      (by decide) (by decide) rfl (by decide) (by decide) (by decide)
      (by decide)).2.1⟩

/-
Event result fetching: src/discovery/results_fetcher.py.
-/

/-- The deterministic upstream and storage environment of the results
fetcher: the title answered by get_event_details and the number of rows
answered by get_event_results, each none when the call would raise. -/
structure FetchEnv where
  details : String → Option String
  results : String → Option Nat
  now_iso : String

/-- BatchResultsFetcher.fetch_event (results_fetcher.py lines 74-148).
The cache is the set of event ids whose results object exists in S3;
the function returns the (results_count, s3_key) pair of the source with
the updated checkpoint and cache.  A raised results fetch is caught and
the event still marked fetched. -/
def fetch_event (env : FetchEnv) (event_id : String)
    (event_info : EventInfo) (checkpoint : Checkpoint)
    (cache : List String) :
    (Nat × String) × Checkpoint × List String :=
  if event_id ∈ checkpoint.events_fetched then ((0, ""), checkpoint, cache)
  else
    let s3_key := "raw/events/" ++ event_id ++ "/results.json"
    if event_id ∈ cache then
      ((0, s3_key), checkpoint.mark_event_fetched event_id, cache)
    else
      let _event_name := if event_info.event_name = "" then
        (match env.details event_id with
         | some t2 => t2
         | none => "Event " ++ event_id)
        else event_info.event_name
      match env.results event_id with
      | some n =>
        ((n, s3_key), checkpoint.mark_event_fetched event_id,
          cache ++ [event_id])
      | none => ((0, ""), checkpoint.mark_event_fetched event_id, cache)

/-- BatchResultsFetcher.fetch_batch, threading checkpoint and cache and
counting fetched events and total results. -/
def fetch_batch (env : FetchEnv) (event_ids : List String)
    (checkpoint : Checkpoint) (cache : List String) :
    (Nat × Nat) × Checkpoint × List String :=
  event_ids.foldl (fun acc event_id =>
    let event_info := (List.lookup event_id
      acc.2.1.events_discovered).getD ⟨"", 0, []⟩
    let r := fetch_event env event_id event_info acc.2.1 acc.2.2
    ((acc.1.1 + 1, acc.1.2 + r.1.1), r.2.1, r.2.2))
    ((0, 0), checkpoint, cache)

/-- BatchResultsFetcher.fetch_next_batch (results_fetcher.py lines
176-211); the inter-batch sleep is dropped.  Returns (more_work,
events_fetched, total_results) with the updated checkpoint and cache. -/
def fetch_next_batch (env : FetchEnv) (batch_size : Nat)
    (checkpoint : Checkpoint) (cache : List String) :
    (Bool × Nat × Nat) × Checkpoint × List String :=
  let pending := checkpoint.get_pending_events
  if pending.isEmpty then ((false, 0, 0), checkpoint, cache)
  else
    let batch := pending.take batch_size
    let r := fetch_batch env batch checkpoint cache
    ((decide (batch.length < pending.length), r.1.1, r.1.2), r.2.1, r.2.2)

-- Checkpoint projections of the batch drivers.

/-- The checkpoint transform of one process_rider call. -/
def procCp (stages : List StageInfo) (hist : String → List HistEntry)
    (c : Checkpoint) (r : Rider) : Checkpoint :=
  (process_rider stages hist r c).1

/-- The checkpoint transform of a sequential rider list. -/
def processList (stages : List StageInfo)
    (hist : String → List HistEntry) (rs : List Rider) (c : Checkpoint) :
    Checkpoint :=
  rs.foldl (procCp stages hist) c

theorem process_batch_fst (stages : List StageInfo)
    (hist : String → List HistEntry) (rs : List Rider) :
    ∀ (c : Checkpoint) (a b : Nat),
      (rs.foldl (fun acc rider =>
        let r := process_rider stages hist rider acc.1
        (r.1, acc.2.1 + 1, acc.2.2 + r.2.1)) (c, a, b)).1 =
      processList stages hist rs c := by
  induction rs with
  | nil => intro c a b; rfl
  | cons r t ih =>
    intro c a b
    rw [List.foldl_cons]
    exact ih _ _ _

theorem process_batch_eq (stages : List StageInfo)
    (hist : String → List HistEntry) (rs : List Rider) (c : Checkpoint) :
    (process_batch stages hist rs c).1 = processList stages hist rs c :=
  process_batch_fst stages hist rs c 0 0

/-- The state transform of one fetch_event call inside fetch_batch,
looking the event info up in the current checkpoint. -/
def fetchSt (env : FetchEnv) (st : Checkpoint × List String)
    (event_id : String) : Checkpoint × List String :=
  (fetch_event env event_id
    ((List.lookup event_id st.1.events_discovered).getD ⟨"", 0, []⟩)
    st.1 st.2).2

/-- The state transform of a sequential event id list. -/
def fetchList (env : FetchEnv) (ids : List String)
    (st : Checkpoint × List String) : Checkpoint × List String :=
  ids.foldl (fetchSt env) st

theorem fetch_batch_snd (env : FetchEnv) (ids : List String) :
    ∀ (c : Checkpoint) (cache : List String) (a b : Nat),
      (ids.foldl (fun acc event_id =>
        let event_info := (List.lookup event_id
          acc.2.1.events_discovered).getD ⟨"", 0, []⟩
        let r := fetch_event env event_id event_info acc.2.1 acc.2.2
        ((acc.1.1 + 1, acc.1.2 + r.1.1), r.2.1, r.2.2))
        ((a, b), c, cache)).2 =
      fetchList env ids (c, cache) := by
  induction ids with
  | nil => intro c cache a b; rfl
  | cons e t ih =>
    intro c cache a b
    rw [List.foldl_cons]
    exact ih _ _ _ _

theorem fetch_batch_eq (env : FetchEnv) (ids : List String)
    (c : Checkpoint) (cache : List String) :
    (fetch_batch env ids c cache).2 = fetchList env ids (c, cache) :=
  fetch_batch_snd env ids c cache 0 0

-- Field-preservation lemmas for the fetched-subset invariant.

theorem mark_fetched_discovered (c : Checkpoint) (eid : String) :
    (c.mark_event_fetched eid).events_discovered =
      c.events_discovered := by
  unfold Checkpoint.mark_event_fetched
  split <;> rfl

theorem mark_fetched_mem_iff (c : Checkpoint) (eid a : String) :
    a ∈ (c.mark_event_fetched eid).events_fetched ↔
      a ∈ c.events_fetched ∨ a = eid := by
  unfold Checkpoint.mark_event_fetched
  by_cases h : eid ∈ c.events_fetched
  · rw [if_pos h]
    constructor
    · exact Or.inl
    · rintro (ha | rfl)
      · exact ha
      · exact h
  · rw [if_neg h]
    simp

theorem fetch_event_discovered (env : FetchEnv) (eid : String)
    (info : EventInfo) (c : Checkpoint) (cache : List String) :
    (fetch_event env eid info c cache).2.1.events_discovered =
      c.events_discovered := by
  unfold fetch_event
  by_cases h1 : eid ∈ c.events_fetched
  · rw [if_pos h1]
  · rw [if_neg h1]
    by_cases h2 : eid ∈ cache
    · rw [if_pos h2]
      exact mark_fetched_discovered c eid
    · rw [if_neg h2]
      cases env.results eid with
      | some n => exact mark_fetched_discovered c eid
      | none => exact mark_fetched_discovered c eid

theorem fetch_event_fetched_sub (env : FetchEnv) (eid : String)
    (info : EventInfo) (c : Checkpoint) (cache : List String) (a : String)
    (h : a ∈ (fetch_event env eid info c cache).2.1.events_fetched) :
    a ∈ c.events_fetched ∨ a = eid := by
  unfold fetch_event at h
  by_cases h1 : eid ∈ c.events_fetched
  · rw [if_pos h1] at h
    exact Or.inl h
  · rw [if_neg h1] at h
    by_cases h2 : eid ∈ cache
    · rw [if_pos h2] at h
      exact (mark_fetched_mem_iff c eid a).mp h
    · rw [if_neg h2] at h
      cases hres : env.results eid with
      | some n =>
        rw [hres] at h
        exact (mark_fetched_mem_iff c eid a).mp h
      | none =>
        rw [hres] at h
        exact (mark_fetched_mem_iff c eid a).mp h

theorem process_rider_fetched (stages : List StageInfo)
    (hist : String → List HistEntry) (r : Rider) (c : Checkpoint) :
    (process_rider stages hist r c).1.events_fetched =
      c.events_fetched := by
  unfold process_rider
  by_cases hid : r.id = ""
  · rw [if_pos hid]
  · rw [if_neg hid]
    by_cases hp : r.id ∈ c.riders_processed
    · rw [if_pos hp]
    · rw [if_neg hp]
      show (((hist r.id).foldl (processEntry stages)
        (c, 0)).1.mark_rider_processed r.id).events_fetched =
        c.events_fetched
      rw [mark_rider_fetched]
      have hgen : ∀ (l : List HistEntry) (acc : Checkpoint × Nat),
          (l.foldl (processEntry stages) acc).1.events_fetched =
            acc.1.events_fetched := by
        intro l
        induction l with
        | nil => intro acc; rfl
        | cons entry t ih =>
          intro acc
          rw [List.foldl_cons, ih]
          unfold processEntry
          by_cases h1 : strContains (lowerStr (entryName entry))
              "tour de zwift" = false
          · rw [if_pos h1]
          · rw [if_neg h1]
            by_cases h2 : entryId entry = ""
            · rw [if_pos h2]
            · rw [if_neg h2, stageFold_fst, addFold_fetched]
      exact hgen (hist r.id) (c, 0)

theorem addFold_keys_mono (eid nm : String) (ts : Int) (ns : List String) :
    ∀ (c : Checkpoint) (k : String),
      k ∈ keysOf c.events_discovered →
      k ∈ keysOf (addFold eid nm ts ns c).events_discovered := by
  induction ns with
  | nil => intro c k h; exact h
  | cons s t ih =>
    intro c k h
    have hcons : addFold eid nm ts (s :: t) c =
      addFold eid nm ts t (c.add_discovered_event eid nm ts s) := rfl
    rw [hcons]
    exact ih _ _ (add_discovered_keys_mono c eid nm ts s k h)

theorem process_rider_keys_mono (stages : List StageInfo)
    (hist : String → List HistEntry) (r : Rider) (c : Checkpoint)
    (k : String) (h : k ∈ keysOf c.events_discovered) :
    k ∈ keysOf (process_rider stages hist r c).1.events_discovered := by
  unfold process_rider
  by_cases hid : r.id = ""
  · rw [if_pos hid]; exact h
  · rw [if_neg hid]
    by_cases hp : r.id ∈ c.riders_processed
    · rw [if_pos hp]; exact h
    · rw [if_neg hp]
      show k ∈ keysOf (((hist r.id).foldl (processEntry stages)
        (c, 0)).1.mark_rider_processed r.id).events_discovered
      rw [mark_rider_events]
      have hgen : ∀ (l : List HistEntry) (acc : Checkpoint × Nat),
          k ∈ keysOf acc.1.events_discovered →
          k ∈ keysOf (l.foldl (processEntry stages)
            acc).1.events_discovered := by
        intro l
        induction l with
        | nil => intro acc hk; exact hk
        | cons entry t ih =>
          intro acc hk
          rw [List.foldl_cons]
          apply ih
          unfold processEntry
          by_cases h1 : strContains (lowerStr (entryName entry))
              "tour de zwift" = false
          · rw [if_pos h1]; exact hk
          · rw [if_neg h1]
            by_cases h2 : entryId entry = ""
            · rw [if_pos h2]; exact hk
            · rw [if_neg h2, stageFold_fst]
              exact addFold_keys_mono _ _ _ _ _ _ hk
      exact hgen (hist r.id) (c, 0) h

/-- The fetched-subset invariant: every fetched event id is a key of
events_discovered. -/
def fetched_subset (c : Checkpoint) : Prop :=
  ∀ e ∈ c.events_fetched, e ∈ keysOf c.events_discovered

/-- Checkpoint states reachable from a fresh checkpoint through the step
operations the orchestrator performs: rider batches, event-fetch batches,
the phase transitions, stage initialization, run count increment,
completion marking, save stamping and the serialize-reload cycle. -/
inductive Reachable (stages : List StageInfo)
    (hist : String → List HistEntry) (fenv : FetchEnv) :
    Checkpoint → Prop where
  | fresh : Reachable stages hist fenv {}
  | discover (cp : Checkpoint) (all_riders : List Rider) (bsize : Nat) :
      Reachable stages hist fenv cp →
      Reachable stages hist fenv
        (process_next_batch stages hist bsize all_riders cp).1
  | fetchStep (cp : Checkpoint) (bsize : Nat) (cache : List String) :
      Reachable stages hist fenv cp →
      Reachable stages hist fenv (fetch_next_batch fenv bsize cp cache).2.1
  | toFetchPhase (cp : Checkpoint) :
      Reachable stages hist fenv cp →
      Reachable stages hist fenv { cp with phase := "fetch_results" }
  | initStages (cp : Checkpoint) (ns : List String) (tid : String) :
      Reachable stages hist fenv cp →
      Reachable stages hist fenv
        { cp with stage_numbers := ns, tour_id := tid }
  | incr (cp : Checkpoint) (iso : String) :
      Reachable stages hist fenv cp →
      Reachable stages hist fenv (cp.increment_run_count iso)
  | complete (cp : Checkpoint) (iso : String) :
      Reachable stages hist fenv cp →
      Reachable stages hist fenv (cp.mark_complete iso)
  | stamp (cp : Checkpoint) (iso : String) :
      Reachable stages hist fenv cp →
      Reachable stages hist fenv (cp.update_timestamp iso)
  | reload (cp : Checkpoint) :
      Reachable stages hist fenv cp →
      Reachable stages hist fenv (roundtrip cp)

theorem processList_inv (stages : List StageInfo)
    (hist : String → List HistEntry) (rs : List Rider) :
    ∀ c : Checkpoint, fetched_subset c →
      fetched_subset (processList stages hist rs c) := by
  induction rs with
  | nil => intro c h; exact h
  | cons r t ih =>
    intro c h
    apply ih
    intro e he
    rw [procCp, process_rider_fetched] at he
    exact process_rider_keys_mono stages hist r c e (h e he)

theorem fetchSt_inv (env : FetchEnv) (st : Checkpoint × List String)
    (eid : String) (h : fetched_subset st.1)
    (heid : eid ∈ keysOf st.1.events_discovered) :
    fetched_subset (fetchSt env st eid).1 := by
  intro e he
  rw [fetchSt] at he
  rw [fetchSt, fetch_event_discovered]
  rcases fetch_event_fetched_sub env eid _ st.1 st.2 e he with h1 | rfl
  · exact h e h1
  · exact heid

theorem fetchSt_discovered (env : FetchEnv)
    (st : Checkpoint × List String) (eid : String) :
    (fetchSt env st eid).1.events_discovered =
      st.1.events_discovered := by
  rw [fetchSt, fetch_event_discovered]

theorem fetchList_inv (env : FetchEnv) (ids : List String) :
    ∀ st : Checkpoint × List String, fetched_subset st.1 →
      (∀ e ∈ ids, e ∈ keysOf st.1.events_discovered) →
      fetched_subset (fetchList env ids st).1 := by
  induction ids with
  | nil => intro st h _; exact h
  | cons e t ih =>
    intro st h hids
    apply ih
    · exact fetchSt_inv env st e h (hids e (by simp))
    · intro e2 he2
      rw [fetchSt_discovered]
      exact hids e2 (by simp [he2])

theorem get_pending_events_sub (c : Checkpoint) :
    ∀ e ∈ c.get_pending_events, e ∈ keysOf c.events_discovered := by
  intro e he
  unfold Checkpoint.get_pending_events at he
  exact (List.mem_filter.mp he).1

/-- C7.  Fetched-subset invariant: in every checkpoint reachable from a
fresh one through the step operations of the orchestrator, every fetched
event id is a key of events_discovered. -/
theorem C7_fetched_subset (stages : List StageInfo)
    (hist : String → List HistEntry) (fenv : FetchEnv) (cp : Checkpoint)
    (h : Reachable stages hist fenv cp) : fetched_subset cp := by
  induction h with
  | fresh => intro e he; cases he
  | discover cp all_riders bsize _ ih =>
    unfold process_next_batch
    by_cases hp : (cp.get_pending_riders all_riders).isEmpty
    · rw [if_pos hp]; exact ih
    · rw [if_neg hp]
      show fetched_subset (process_batch stages hist _ cp).1
      rw [process_batch_eq]
      exact processList_inv stages hist _ cp ih
  | fetchStep cp bsize cache _ ih =>
    unfold fetch_next_batch
    by_cases hp : cp.get_pending_events.isEmpty
    · rw [if_pos hp]; exact ih
    · rw [if_neg hp]
      show fetched_subset (fetch_batch fenv _ cp cache).2.1
      have heq := fetch_batch_eq fenv (cp.get_pending_events.take bsize)
        cp cache
      have : (fetch_batch fenv (cp.get_pending_events.take bsize) cp
          cache).2.1 =
        (fetchList fenv (cp.get_pending_events.take bsize)
          (cp, cache)).1 := by rw [heq]
      rw [this]
      apply fetchList_inv fenv _ (cp, cache) ih
      intro e he
      exact get_pending_events_sub cp e (List.take_subset _ _ he)
  | toFetchPhase cp _ ih => exact ih
  | initStages cp ns tid _ ih => exact ih
  | incr cp iso _ ih =>
    unfold Checkpoint.increment_run_count
    by_cases hs : cp.started_at = "" <;> simp only [hs] <;>
      [exact fun e he => ih e he; exact fun e he => ih e he]
  | complete cp iso _ ih => exact ih
  | stamp cp iso _ ih => exact ih
  | reload cp _ ih => rw [roundtrip_id]; exact ih

/-- C7 witness: the invariant holds at the concrete checkpoint reached by
one rider batch from fresh, which discovers one event. -/
theorem C7_fetched_subset_witness :
    fetched_subset (process_next_batch [⟨"1", 100, 200⟩]
      (fun _ => [⟨"Tour de Zwift Stage 1", "", "", 175, 0, "e1", "", ""⟩])
      5 [⟨"r1", "n"⟩] {}).1 :=
  C7_fetched_subset [⟨"1", 100, 200⟩]
    (fun _ => [⟨"Tour de Zwift Stage 1", "", "", 175, 0, "e1", "", ""⟩])
    ⟨fun _ => none, fun _ => none, ""⟩ _
    (Reachable.discover {} [⟨"r1", "n"⟩] 5 Reachable.fresh)

-- Resumption equivalence, discovery phase.

theorem procCp_skip (stages : List StageInfo)
    (hist : String → List HistEntry) (c : Checkpoint) (r : Rider)
    (h : r.id ∈ c.riders_processed) : procCp stages hist c r = c := by
  rw [procCp, process_rider_skip stages hist r c h]

theorem process_rider_proc_mono (stages : List StageInfo)
    (hist : String → List HistEntry) (r : Rider) (c : Checkpoint)
    (a : String) (h : a ∈ c.riders_processed) :
    a ∈ (process_rider stages hist r c).1.riders_processed := by
  unfold process_rider
  by_cases hid : r.id = ""
  · rw [if_pos hid]; exact h
  · rw [if_neg hid]
    by_cases hp : r.id ∈ c.riders_processed
    · rw [if_pos hp]; exact h
    · rw [if_neg hp]
      show a ∈ (((hist r.id).foldl (processEntry stages)
        (c, 0)).1.mark_rider_processed r.id).riders_processed
      apply mark_rider_mono
      rw [histFold_riders]
      exact h

theorem processList_proc_mono (stages : List StageInfo)
    (hist : String → List HistEntry) (rs : List Rider) :
    ∀ (c : Checkpoint) (a : String), a ∈ c.riders_processed →
      a ∈ (processList stages hist rs c).riders_processed := by
  induction rs with
  | nil => intro c a h; exact h
  | cons r t ih =>
    intro c a h
    exact ih _ a (process_rider_proc_mono stages hist r c a h)

theorem processList_marks (stages : List StageInfo)
    (hist : String → List HistEntry) (rs : List Rider)
    (hids : ∀ r ∈ rs, r.id ≠ "") :
    ∀ (c : Checkpoint) (r : Rider), r ∈ rs →
      r.id ∈ (processList stages hist rs c).riders_processed := by
  induction rs with
  | nil => intro c r h; cases h
  | cons r0 t ih =>
    intro c r h
    rcases List.mem_cons.mp h with rfl | h
    · show r.id ∈ (processList stages hist t
        (procCp stages hist c r)).riders_processed
      apply processList_proc_mono
      exact process_rider_marks stages hist r c (hids r (by simp))
    · exact ih (fun r2 h2 => hids r2 (by simp [h2])) _ r h

/-- Dropping riders that are already processed from the work list does
not change the outcome: they are pure skips. -/
theorem processList_filter_skip (stages : List StageInfo)
    (hist : String → List HistEntry) (rs : List Rider) :
    ∀ (p : Rider → Bool) (c : Checkpoint),
      (∀ r ∈ rs, p r = false → r.id ∈ c.riders_processed) →
      processList stages hist (rs.filter p) c =
        processList stages hist rs c := by
  induction rs with
  | nil => intro p c _; rfl
  | cons r t ih =>
    intro p c h
    by_cases hp : p r = true
    · rw [List.filter_cons, if_pos hp]
      show processList stages hist (t.filter p)
          (procCp stages hist c r) =
        processList stages hist t (procCp stages hist c r)
      apply ih
      intro r2 h2 hp2
      exact process_rider_proc_mono stages hist r c r2.id
        (h r2 (by simp [h2]) hp2)
    · have hpf : p r = false := Bool.eq_false_iff.mpr hp
      rw [List.filter_cons, if_neg (by simp [hpf])]
      have hskip : procCp stages hist c r = c :=
        procCp_skip stages hist c r (h r (by simp) hpf)
      show processList stages hist (t.filter p) c =
        processList stages hist t (procCp stages hist c r)
      rw [hskip]
      apply ih
      intro r2 h2 hp2
      exact h r2 (by simp [h2]) hp2

/-- Processing only the pending riders equals processing the whole
list. -/
theorem processList_pending (stages : List StageInfo)
    (hist : String → List HistEntry) (rs : List Rider) (c : Checkpoint) :
    processList stages hist (c.get_pending_riders rs) c =
      processList stages hist rs c := by
  unfold Checkpoint.get_pending_riders
  apply processList_filter_skip
  intro r _ hp
  have := decide_eq_false_iff_not.mp hp
  simpa using this

theorem processList_append (stages : List StageInfo)
    (hist : String → List HistEntry) (l1 l2 : List Rider)
    (c : Checkpoint) :
    processList stages hist (l1 ++ l2) c =
      processList stages hist l2 (processList stages hist l1 c) :=
  List.foldl_append _ _ _ _

theorem process_next_batch_fst (stages : List StageInfo)
    (hist : String → List HistEntry) (b : Nat) (rs : List Rider)
    (c : Checkpoint) :
    (process_next_batch stages hist b rs c).1 =
      processList stages hist ((c.get_pending_riders rs).take b) c := by
  unfold process_next_batch
  by_cases hp : (c.get_pending_riders rs).isEmpty
  · rw [if_pos hp]
    have : c.get_pending_riders rs = [] := List.isEmpty_iff.mp hp
    rw [this]
    simp [processList, List.take_nil]
  · rw [if_neg hp]
    exact process_batch_eq stages hist _ c

/-- One batch step keeps the run-to-completion outcome invariant. -/
theorem discover_step_inv (stages : List StageInfo)
    (hist : String → List HistEntry) (rs : List Rider)
    (hids : ∀ r ∈ rs, r.id ≠ "") (b : Nat) (c : Checkpoint) :
    processList stages hist
        (((process_next_batch stages hist b rs c).1).get_pending_riders
          rs) (process_next_batch stages hist b rs c).1 =
      processList stages hist (c.get_pending_riders rs) c := by
  rw [process_next_batch_fst]
  set p := c.get_pending_riders rs with hpdef
  set c2 := processList stages hist (p.take b) c with hc2
  have hmono : ∀ a ∈ c.riders_processed, a ∈ c2.riders_processed := by
    intro a ha
    rw [hc2]
    exact processList_proc_mono stages hist _ c a ha
  have hmarks : ∀ r ∈ p.take b, r.id ∈ c2.riders_processed := by
    intro r hr
    rw [hc2]
    apply processList_marks stages hist (p.take b)
    · intro r2 hr2
      apply hids
      rw [hpdef] at hr2
      exact (List.mem_filter.mp (List.take_subset b _ hr2)).1
    · exact hr
  have hfilter : c2.get_pending_riders rs =
      (p.drop b).filter
        (fun r => decide (r.id ∉ c2.riders_processed)) := by
    unfold Checkpoint.get_pending_riders
    have h1 : rs.filter (fun r => decide (r.id ∉ c2.riders_processed)) =
        (rs.filter (fun r => decide (r.id ∉ c.riders_processed))).filter
          (fun r => decide (r.id ∉ c2.riders_processed)) := by
      rw [List.filter_filter]
      apply List.filter_congr
      intro r _
      by_cases h2 : r.id ∈ c2.riders_processed
      · simp [h2]
      · have h3 : r.id ∉ c.riders_processed := fun hmem =>
          h2 (hmono r.id hmem)
        simp [h2, h3]
    rw [h1]
    have hp2 : rs.filter (fun r =>
        decide (r.id ∉ c.riders_processed)) = p := by
      rw [hpdef]; rfl
    rw [hp2]
    have hsplit : p = p.take b ++ p.drop b :=
      (List.take_append_drop b p).symm
    rw [hsplit, List.filter_append]
    have hnil : (p.take b).filter
        (fun r => decide (r.id ∉ c2.riders_processed)) = [] := by
      rw [List.filter_eq_nil_iff]
      intro r hr
      simp only [decide_eq_true_eq]
      intro hcontra
      exact hcontra (hmarks r hr)
    rw [hnil, List.nil_append]
    have : p.take b ++ p.drop b = p := List.take_append_drop b p
    rw [show (p.take b ++ p.drop b).drop b = p.drop b by rw [this]]
  rw [hfilter]
  have hM : processList stages hist
      ((p.drop b).filter (fun r => decide (r.id ∉ c2.riders_processed)))
        c2 =
      processList stages hist (p.drop b) c2 := by
    apply processList_filter_skip
    intro r _ hpf
    have := decide_eq_false_iff_not.mp hpf
    simpa using this
  rw [hM]
  have : processList stages hist p c =
      processList stages hist (p.drop b) c2 := by
    rw [hc2, ← processList_append]
    rw [List.take_append_drop]
  rw [← this]

-- Resumption equivalence, fetch phase.

theorem fetchSt_skip (env : FetchEnv) (st : Checkpoint × List String)
    (eid : String) (h : eid ∈ st.1.events_fetched) :
    fetchSt env st eid = st := by
  unfold fetchSt fetch_event
  rw [if_pos h]

theorem fetchSt_marks (env : FetchEnv) (st : Checkpoint × List String)
    (eid : String) :
    eid ∈ (fetchSt env st eid).1.events_fetched := by
  unfold fetchSt fetch_event
  by_cases h1 : eid ∈ st.1.events_fetched
  · rw [if_pos h1]
    exact h1
  · rw [if_neg h1]
    by_cases h2 : eid ∈ st.2
    · rw [if_pos h2]
      exact (mark_fetched_mem_iff st.1 eid eid).mpr (Or.inr rfl)
    · rw [if_neg h2]
      cases hres : env.results eid with
      | some n =>
        exact (mark_fetched_mem_iff st.1 eid eid).mpr (Or.inr rfl)
      | none =>
        exact (mark_fetched_mem_iff st.1 eid eid).mpr (Or.inr rfl)

theorem fetchSt_fetched_mono (env : FetchEnv)
    (st : Checkpoint × List String) (eid a : String)
    (h : a ∈ st.1.events_fetched) :
    a ∈ (fetchSt env st eid).1.events_fetched := by
  unfold fetchSt fetch_event
  by_cases h1 : eid ∈ st.1.events_fetched
  · rw [if_pos h1]
    exact h
  · rw [if_neg h1]
    by_cases h2 : eid ∈ st.2
    · rw [if_pos h2]
      exact (mark_fetched_mem_iff st.1 eid a).mpr (Or.inl h)
    · rw [if_neg h2]
      cases hres : env.results eid with
      | some n => exact (mark_fetched_mem_iff st.1 eid a).mpr (Or.inl h)
      | none => exact (mark_fetched_mem_iff st.1 eid a).mpr (Or.inl h)

theorem fetchList_fetched_mono (env : FetchEnv) (ids : List String) :
    ∀ (st : Checkpoint × List String) (a : String),
      a ∈ st.1.events_fetched →
      a ∈ (fetchList env ids st).1.events_fetched := by
  induction ids with
  | nil => intro st a h; exact h
  | cons e t ih =>
    intro st a h
    exact ih _ a (fetchSt_fetched_mono env st e a h)

theorem fetchList_marks (env : FetchEnv) (ids : List String) :
    ∀ (st : Checkpoint × List String) (e : String), e ∈ ids →
      e ∈ (fetchList env ids st).1.events_fetched := by
  induction ids with
  | nil => intro st e h; cases h
  | cons e0 t ih =>
    intro st e h
    rcases List.mem_cons.mp h with rfl | h
    · exact fetchList_fetched_mono env t _ e (fetchSt_marks env st e)
    · exact ih _ e h

theorem fetchList_discovered (env : FetchEnv) (ids : List String) :
    ∀ st : Checkpoint × List String,
      (fetchList env ids st).1.events_discovered =
        st.1.events_discovered := by
  induction ids with
  | nil => intro st; rfl
  | cons e t ih =>
    intro st
    show (fetchList env t (fetchSt env st e)).1.events_discovered = _
    rw [ih, fetchSt_discovered]

theorem fetchList_filter_skip (env : FetchEnv) (ids : List String) :
    ∀ (p : String → Bool) (st : Checkpoint × List String),
      (∀ e ∈ ids, p e = false → e ∈ st.1.events_fetched) →
      fetchList env (ids.filter p) st = fetchList env ids st := by
  induction ids with
  | nil => intro p st _; rfl
  | cons e t ih =>
    intro p st h
    by_cases hp : p e = true
    · rw [List.filter_cons, if_pos hp]
      show fetchList env (t.filter p) (fetchSt env st e) =
        fetchList env t (fetchSt env st e)
      apply ih
      intro e2 h2 hp2
      exact fetchSt_fetched_mono env st e e2 (h e2 (by simp [h2]) hp2)
    · have hpf : p e = false := Bool.eq_false_iff.mpr hp
      rw [List.filter_cons, if_neg (by simp [hpf])]
      have hskip : fetchSt env st e = st :=
        fetchSt_skip env st e (h e (by simp) hpf)
      show fetchList env (t.filter p) st =
        fetchList env t (fetchSt env st e)
      rw [hskip]
      apply ih
      intro e2 h2 hp2
      exact h e2 (by simp [h2]) hp2

theorem fetchList_pending (env : FetchEnv)
    (st : Checkpoint × List String) :
    fetchList env st.1.get_pending_events st =
      fetchList env (keysOf st.1.events_discovered) st := by
  unfold Checkpoint.get_pending_events
  apply fetchList_filter_skip
  intro e _ hp
  have := decide_eq_false_iff_not.mp hp
  simpa using this

theorem fetchList_append (env : FetchEnv) (l1 l2 : List String)
    (st : Checkpoint × List String) :
    fetchList env (l1 ++ l2) st =
      fetchList env l2 (fetchList env l1 st) :=
  List.foldl_append _ _ _ _

theorem fetch_next_batch_snd (env : FetchEnv) (b : Nat) (c : Checkpoint)
    (cache : List String) :
    (fetch_next_batch env b c cache).2 =
      fetchList env (c.get_pending_events.take b) (c, cache) := by
  unfold fetch_next_batch
  by_cases hp : c.get_pending_events.isEmpty
  · rw [if_pos hp]
    have : c.get_pending_events = [] := List.isEmpty_iff.mp hp
    rw [this]
    simp [fetchList, List.take_nil]
  · rw [if_neg hp]
    exact fetch_batch_eq env _ c cache

/-- One fetch batch step keeps the run-to-completion outcome
invariant. -/
theorem fetch_step_inv (env : FetchEnv) (b : Nat) (c : Checkpoint)
    (cache : List String) :
    fetchList env
        ((fetch_next_batch env b c cache).2.1.get_pending_events)
        (fetch_next_batch env b c cache).2 =
      fetchList env c.get_pending_events (c, cache) := by
  rw [fetch_next_batch_snd]
  set p := c.get_pending_events with hpdef
  set st2 := fetchList env (p.take b) (c, cache) with hst2
  have hmono : ∀ a ∈ c.events_fetched, a ∈ st2.1.events_fetched := by
    intro a ha
    rw [hst2]
    exact fetchList_fetched_mono env _ (c, cache) a ha
  have hmarks : ∀ e ∈ p.take b, e ∈ st2.1.events_fetched := by
    intro e he
    rw [hst2]
    exact fetchList_marks env _ (c, cache) e he
  have hfilter : st2.1.get_pending_events =
      (p.drop b).filter (fun e => decide (e ∉ st2.1.events_fetched)) := by
    unfold Checkpoint.get_pending_events
    have hdisc : keysOf st2.1.events_discovered =
        keysOf c.events_discovered := by
      rw [hst2, fetchList_discovered]
    rw [hdisc]
    have h1 : (keysOf c.events_discovered).filter
        (fun e => decide (e ∉ st2.1.events_fetched)) =
        ((keysOf c.events_discovered).filter
          (fun e => decide (e ∉ c.events_fetched))).filter
            (fun e => decide (e ∉ st2.1.events_fetched)) := by
      rw [List.filter_filter]
      apply List.filter_congr
      intro e _
      by_cases h2 : e ∈ st2.1.events_fetched
      · simp [h2]
      · have h3 : e ∉ c.events_fetched := fun hmem => h2 (hmono e hmem)
        simp [h2, h3]
    rw [h1]
    have hp2 : (keysOf c.events_discovered).filter
        (fun e => decide (e ∉ c.events_fetched)) = p := by
      rw [hpdef]; rfl
    rw [hp2]
    have hsplit : p = p.take b ++ p.drop b :=
      (List.take_append_drop b p).symm
    rw [hsplit, List.filter_append]
    have hnil : (p.take b).filter
        (fun e => decide (e ∉ st2.1.events_fetched)) = [] := by
      rw [List.filter_eq_nil_iff]
      intro e he
      simp only [decide_eq_true_eq]
      intro hcontra
      exact hcontra (hmarks e he)
    rw [hnil, List.nil_append]
    have hjoin : p.take b ++ p.drop b = p := List.take_append_drop b p
    rw [show (p.take b ++ p.drop b).drop b = p.drop b by rw [hjoin]]
  rw [hfilter]
  have hM : fetchList env
      ((p.drop b).filter (fun e => decide (e ∉ st2.1.events_fetched)))
        st2 =
      fetchList env (p.drop b) st2 := by
    apply fetchList_filter_skip
    intro e _ hpf
    have := decide_eq_false_iff_not.mp hpf
    simpa using this
  rw [hM]
  have : fetchList env p (c, cache) = fetchList env (p.drop b) st2 := by
    rw [hst2, ← fetchList_append]
    rw [List.take_append_drop]
  rw [← this]

/-- Discovery run as N batches of given sizes, with a checkpoint
serialize-reload cycle after every batch. -/
def discover_run (stages : List StageInfo)
    (hist : String → List HistEntry) (rs : List Rider)
    (sizes : List Nat) (c : Checkpoint) : Checkpoint :=
  sizes.foldl (fun c2 b =>
    roundtrip (process_next_batch stages hist b rs c2).1) c

/-- Fetch run as N batches of given sizes, with a checkpoint
serialize-reload cycle after every batch (the cache lives in S3 and is
not serialized). -/
def fetch_run (env : FetchEnv) (sizes : List Nat)
    (st : Checkpoint × List String) : Checkpoint × List String :=
  sizes.foldl (fun st2 b =>
    let r := fetch_next_batch env b st2.1 st2.2
    (roundtrip r.2.1, r.2.2)) st

theorem discover_run_inv (stages : List StageInfo)
    (hist : String → List HistEntry) (rs : List Rider)
    (hids : ∀ r ∈ rs, r.id ≠ "") (sizes : List Nat) :
    ∀ c : Checkpoint,
      processList stages hist
          ((discover_run stages hist rs sizes c).get_pending_riders rs)
          (discover_run stages hist rs sizes c) =
        processList stages hist (c.get_pending_riders rs) c := by
  induction sizes with
  | nil => intro c; rfl
  | cons b t ih =>
    intro c
    have hstep : discover_run stages hist rs (b :: t) c =
        discover_run stages hist rs t
          (process_next_batch stages hist b rs c).1 := by
      show discover_run stages hist rs t
        (roundtrip (process_next_batch stages hist b rs c).1) = _
      rw [roundtrip_id]
    rw [hstep, ih, discover_step_inv stages hist rs hids]

theorem one_pass_discovery (stages : List StageInfo)
    (hist : String → List HistEntry) (rs : List Rider) (c : Checkpoint) :
    (process_next_batch stages hist rs.length rs c).1 =
      processList stages hist rs c := by
  rw [process_next_batch_fst]
  have hlen : (c.get_pending_riders rs).length ≤ rs.length := by
    unfold Checkpoint.get_pending_riders
    exact List.length_filter_le _ _
  rw [List.take_of_length_le hlen]
  exact processList_pending stages hist rs c

theorem fetch_run_inv (env : FetchEnv) (sizes : List Nat) :
    ∀ st : Checkpoint × List String,
      fetchList env
          ((fetch_run env sizes st).1.get_pending_events)
          (fetch_run env sizes st) =
        fetchList env st.1.get_pending_events st := by
  induction sizes with
  | nil => intro st; rfl
  | cons b t ih =>
    intro st
    have hstep : fetch_run env (b :: t) st =
        fetch_run env t (fetch_next_batch env b st.1 st.2).2 := by
      show fetch_run env t
        (roundtrip (fetch_next_batch env b st.1 st.2).2.1,
         (fetch_next_batch env b st.1 st.2).2.2) = _
      rw [roundtrip_id]
    rw [hstep, ih, fetch_step_inv]

theorem one_pass_fetch (env : FetchEnv) (c : Checkpoint)
    (cache : List String) :
    (fetch_next_batch env (keysOf c.events_discovered).length c
      cache).2 = fetchList env c.get_pending_events (c, cache) := by
  rw [fetch_next_batch_snd]
  have hlen : c.get_pending_events.length ≤
      (keysOf c.events_discovered).length := by
    unfold Checkpoint.get_pending_events
    exact List.length_filter_le _ _
  rw [List.take_of_length_le hlen]

/-- The discover-then-fetch pipeline run as arbitrary batches with a
serialize-reload cycle between every batch, starting from a fresh
checkpoint and the given results cache. -/
def pipeline_batched (stages : List StageInfo)
    (hist : String → List HistEntry) (env : FetchEnv) (rs : List Rider)
    (dsizes fsizes : List Nat) (cache0 : List String) :
    Checkpoint × List String :=
  let cpD := discover_run stages hist rs dsizes {}
  fetch_run env fsizes ({ cpD with phase := "fetch_results" }, cache0)

/-- The same pipeline in one unbounded pass: a single rider batch big
enough for every rider, then a single fetch batch big enough for every
discovered event. -/
def pipeline_one_pass (stages : List StageInfo)
    (hist : String → List HistEntry) (env : FetchEnv) (rs : List Rider)
    (cache0 : List String) : Checkpoint × List String :=
  let cpD := (process_next_batch stages hist rs.length rs {}).1
  (fetch_next_batch env
    (keysOf cpD.events_discovered).length
    { cpD with phase := "fetch_results" } cache0).2

/-- C1.  Resumption equivalence: over a fixed rider universe and a
deterministic upstream client, running the pipeline as N batches of
arbitrary sizes with a checkpoint serialize-reload cycle between every
batch produces, once both phases have run to completion, exactly the
final events_discovered mapping and events_fetched set of the single
unbounded pass. -/
theorem C1_resumption_equivalence (stages : List StageInfo)
    (hist : String → List HistEntry) (env : FetchEnv) (rs : List Rider)
    (dsizes fsizes : List Nat) (cache0 : List String)
    (hids : ∀ r ∈ rs, r.id ≠ "")
    (hd : (discover_run stages hist rs dsizes
      {}).get_pending_riders rs = [])
    (hf : (pipeline_batched stages hist env rs dsizes fsizes
      cache0).1.get_pending_events = []) :
    (pipeline_batched stages hist env rs dsizes fsizes
        cache0).1.events_discovered =
      (pipeline_one_pass stages hist env rs cache0).1.events_discovered ∧
    (pipeline_batched stages hist env rs dsizes fsizes
        cache0).1.events_fetched =
      (pipeline_one_pass stages hist env rs cache0).1.events_fetched := by
  have hD : discover_run stages hist rs dsizes {} =
      processList stages hist rs {} := by
    have hinv := discover_run_inv stages hist rs hids dsizes {}
    rw [hd] at hinv
    calc discover_run stages hist rs dsizes {}
        = processList stages hist []
            (discover_run stages hist rs dsizes {}) := rfl
      _ = processList stages hist
            (Checkpoint.get_pending_riders {} rs) {} := hinv
      _ = processList stages hist rs {} :=
            processList_pending stages hist rs {}
  have hD1 : (process_next_batch stages hist rs.length rs {}).1 =
      processList stages hist rs {} :=
    one_pass_discovery stages hist rs {}
  have hstart : pipeline_batched stages hist env rs dsizes fsizes
      cache0 =
      fetch_run env fsizes
        ({ processList stages hist rs {} with
           phase := "fetch_results" }, cache0) := by
    unfold pipeline_batched
    rw [hD]
  have hone : pipeline_one_pass stages hist env rs cache0 =
      fetchList env
        ({ processList stages hist rs {} with
           phase := "fetch_results" } : Checkpoint).get_pending_events
        ({ processList stages hist rs {} with
           phase := "fetch_results" }, cache0) := by
    unfold pipeline_one_pass
    rw [hD1]
    exact one_pass_fetch env _ cache0
  have hB : pipeline_batched stages hist env rs dsizes fsizes cache0 =
      fetchList env
        ({ processList stages hist rs {} with
           phase := "fetch_results" } : Checkpoint).get_pending_events
        ({ processList stages hist rs {} with
           phase := "fetch_results" }, cache0) := by
    have hinv := fetch_run_inv env fsizes
      ({ processList stages hist rs {} with
         phase := "fetch_results" }, cache0)
    rw [← hstart] at hinv
    rw [hf] at hinv
    calc pipeline_batched stages hist env rs dsizes fsizes cache0
        = fetchList env []
            (pipeline_batched stages hist env rs dsizes fsizes
              cache0) := rfl
      _ = _ := hinv
  rw [hB, hone]
  exact ⟨rfl, rfl⟩

/-- C1 witness: two riders, one stage, two discovered events; batches of
size one with reloads between them end in the same discovered mapping
and fetched set as the single unbounded pass. -/
theorem C1_resumption_equivalence_witness :
    (pipeline_batched [⟨"1", 100, 200⟩]
        (fun rid => if rid = "r1" then
          [⟨"Tour de Zwift Stage 1", "", "", 150, 0, "e1", "", ""⟩]
          else [⟨"Tour de Zwift Stage 1", "", "", 160, 0, "e2", "", ""⟩])
        ⟨fun _ => none, fun _ => some 3, "t"⟩
        [⟨"r1", "a"⟩, ⟨"r2", "b"⟩] [1, 1] [1, 1] []).1.events_discovered =
      (pipeline_one_pass [⟨"1", 100, 200⟩]
        (fun rid => if rid = "r1" then
          [⟨"Tour de Zwift Stage 1", "", "", 150, 0, "e1", "", ""⟩]
          else [⟨"Tour de Zwift Stage 1", "", "", 160, 0, "e2", "", ""⟩])
        ⟨fun _ => none, fun _ => some 3, "t"⟩
        [⟨"r1", "a"⟩, ⟨"r2", "b"⟩] []).1.events_discovered ∧
    (pipeline_batched [⟨"1", 100, 200⟩]
        (fun rid => if rid = "r1" then
          [⟨"Tour de Zwift Stage 1", "", "", 150, 0, "e1", "", ""⟩]
          else [⟨"Tour de Zwift Stage 1", "", "", 160, 0, "e2", "", ""⟩])
        ⟨fun _ => none, fun _ => some 3, "t"⟩
        [⟨"r1", "a"⟩, ⟨"r2", "b"⟩] [1, 1] [1, 1] []).1.events_fetched =
      (pipeline_one_pass [⟨"1", 100, 200⟩]
        (fun rid => if rid = "r1" then
          [⟨"Tour de Zwift Stage 1", "", "", 150, 0, "e1", "", ""⟩]
          else [⟨"Tour de Zwift Stage 1", "", "", 160, 0, "e2", "", ""⟩])
        ⟨fun _ => none, fun _ => some 3, "t"⟩
        [⟨"r1", "a"⟩, ⟨"r2", "b"⟩] []).1.events_fetched :=
  C1_resumption_equivalence [⟨"1", 100, 200⟩]
    (fun rid => if rid = "r1" then
      [⟨"Tour de Zwift Stage 1", "", "", 150, 0, "e1", "", ""⟩]
      else [⟨"Tour de Zwift Stage 1", "", "", 160, 0, "e2", "", ""⟩])
    ⟨fun _ => none, fun _ => some 3, "t"⟩
    [⟨"r1", "a"⟩, ⟨"r2", "b"⟩] [1, 1] [1, 1] []
    (by decide) (by decide) (by decide)

/-
Top-level Lambda handler: src/lambda_handlers/batch_discovery.py.

The environment collects everything the handler consumes: the S3 state
(stored checkpoint bytes, cache), the success of each class of storage
call (a false flag means the corresponding boto3 call raises a transport
error), the configuration loads (Except.error models a raised
exception), the deterministic upstream client, and the execution budget:
the while loop runs while invocations of has_time_remaining stay true,
so a monotone remaining-time clock is a number of loop iterations.
Results keep the fields the claims speak about: statusCode, status, an
optional body text and the run count.
-/

/-- One entry of the rider registry config. -/
structure RegRider where
  zwiftpower_id : String
  name : String
deriving DecidableEq

/-- The tour configuration surface the handler reads. -/
structure TourConfig where
  tour_id : String
  stages : List StageInfo
  current_stages : List StageInfo
deriving DecidableEq

/-- TourConfig.get_stage by stage number. -/
def TourConfig.get_stage (tc : TourConfig) (n : String) :
    Option StageInfo :=
  tc.stages.find? (fun s => s.number == n)

/-- The event payload of the handler. -/
structure Payload where
  force_restart : Bool
  stage_override : Option String
deriving DecidableEq

/-- The structured result object of the handler, restricted to the
fields the claims are about. -/
structure HandlerResult where
  statusCode : Nat
  status : Option String
  body : Option String
  run_count : Option Nat
deriving DecidableEq

/-- The partial result returned when the budget runs out. -/
def partialResult (cp : Checkpoint) : HandlerResult :=
  { statusCode := 200, status := some "partial", body := none,
    run_count := some cp.run_count }

/-- The terminal result of the complete branch. -/
def completeResult (cp : Checkpoint) : HandlerResult :=
  { statusCode := 200, status := some "complete", body := none,
    run_count := some cp.run_count }

/-- The result of the top-level exception handler. -/
def errorResult (e : String) (cp : Checkpoint) : HandlerResult :=
  { statusCode := 500, status := some "error", body := some e,
    run_count := some cp.run_count }

/-- The deterministic environment of one handler invocation. -/
structure HandlerEnv where
  data_bucket : String
  stored : Option CheckpointData
  load_ok : Bool
  clear_ok : Bool
  save_ok : Bool
  parseIso : String → Option Int
  now_ts : Int
  now_iso : String
  tour : Except String TourConfig
  riders_cfg : Except String (List RegRider)
  creds : Except String (String × String)
  hist : String → List HistEntry
  fenv : FetchEnv
  cache0 : List String
  pgw : Except String Unit
  budget : Nat

/-- Python set equality of two string lists. -/
def sameSet (a b : List String) : Bool :=
  a.all (fun x => b.contains x) && b.all (fun x => a.contains x)

/-- The while loop of the handler (batch_discovery.py lines 422-502),
running while execution budget remains.  Each iteration runs one batch
of the current phase, saves the checkpoint (raising when the put fails),
and performs the phase transition with a second save; the complete
branch runs process_and_generate_website (its outcome env.pgw, it reads
but never writes the checkpoint), marks the checkpoint complete, saves
it and returns the terminal result.  An unknown phase string matches no
branch and spins until the budget is gone, like the Python while with
no matching elif. -/
def loopGo (env : HandlerEnv) (stages_info : List StageInfo)
    (riders_with_ids : List Rider) :
    Nat → Checkpoint → Option CheckpointData → List String →
    (Except String HandlerResult) × Checkpoint × Option CheckpointData
  | 0, cp, stored, _cache => (Except.ok (partialResult cp), cp, stored)
  | Nat.succ b, cp, stored, cache =>
    if cp.phase = "discover_riders" then
      let r := process_next_batch stages_info env.hist 5 riders_with_ids
        cp
      if env.save_ok = false then
        (Except.error "ClientError: put_object", r.1, stored)
      else
        let cp2 := r.1.update_timestamp env.now_iso
        if r.2.1 then
          loopGo env stages_info riders_with_ids b cp2
            (some cp2.to_dict) cache
        else
          let cp3 := ({ cp2 with
            phase := "fetch_results" }).update_timestamp env.now_iso
          loopGo env stages_info riders_with_ids b cp3
            (some cp3.to_dict) cache
    else if cp.phase = "fetch_results" then
      let r := fetch_next_batch env.fenv 3 cp cache
      if env.save_ok = false then
        (Except.error "ClientError: put_object", r.2.1, stored)
      else
        let cp2 := r.2.1.update_timestamp env.now_iso
        if r.1.1 then
          loopGo env stages_info riders_with_ids b cp2
            (some cp2.to_dict) r.2.2
        else
          let cp3 := ({ cp2 with
            phase := "complete" }).update_timestamp env.now_iso
          loopGo env stages_info riders_with_ids b cp3
            (some cp3.to_dict) r.2.2
    else if cp.phase = "complete" then
      match env.pgw with
      | Except.error e => (Except.error e, cp, stored)
      | Except.ok _ =>
        let cp1 := cp.mark_complete env.now_iso
        if env.save_ok = false then
          (Except.error "ClientError: put_object", cp1, stored)
        else
          let cp2 := cp1.update_timestamp env.now_iso
          (Except.ok (completeResult cp2), cp2, some cp2.to_dict)
    else loopGo env stages_info riders_with_ids b cp stored cache

/-- The tail of the try block after the stale-checkpoint guard: optional
stage-number initialization, the credentials fetch, then the loop. -/
def handler_after_reset (env : HandlerEnv) (checkpoint : Checkpoint)
    (stored : Option CheckpointData) (stages_info : List StageInfo)
    (stage_numbers : List String) (tour_config : TourConfig)
    (riders_with_ids : List Rider) :
    (Except String HandlerResult) × Checkpoint × Option CheckpointData :=
  let checkpoint2 := if checkpoint.stage_numbers.isEmpty then
    { checkpoint with
      stage_numbers := stage_numbers,
      tour_id := tour_config.tour_id }
    else checkpoint
  match env.creds with
  | Except.error e => (Except.error e, checkpoint2, stored)
  | Except.ok _ =>
    loopGo env stages_info riders_with_ids env.budget checkpoint2 stored
      env.cache0

/-- Stage-set guard of the handler (batch_discovery.py lines 394-410):
a stored checkpoint whose stage set differs from the requested one is
cleared and replaced by a fresh checkpoint with the run counter
incremented once. -/
def handler_stages (env : HandlerEnv) (checkpoint : Checkpoint)
    (stored : Option CheckpointData) (tour_config : TourConfig)
    (riders_with_ids : List Rider) (stages_to_process : List StageInfo) :
    (Except String HandlerResult) × Checkpoint × Option CheckpointData :=
  let stages_info := stages_to_process
  let stage_numbers := stages_info.map (fun s => s.number)
  if checkpoint.stage_numbers ≠ [] ∧
      sameSet checkpoint.stage_numbers stage_numbers = false then
    if env.clear_ok = false then
      (Except.error "ClientError: delete_object", checkpoint, stored)
    else
      handler_after_reset env
        (Checkpoint.increment_run_count {} env.now_iso) none stages_info
        stage_numbers tour_config riders_with_ids
  else
    handler_after_reset env checkpoint stored stages_info stage_numbers
      tour_config riders_with_ids

/-- The try block of the handler (batch_discovery.py lines 350-522):
configuration loads, the rider registry guard, stage determination, the
stale-checkpoint guard and the driving loop.  An Except.error result is
an exception travelling to the top-level except handler, paired with
the checkpoint variable as bound at that moment. -/
def handler_body (env : HandlerEnv) (event : Payload)
    (checkpoint : Checkpoint) (stored : Option CheckpointData) :
    (Except String HandlerResult) × Checkpoint × Option CheckpointData :=
  match env.tour with
  | Except.error e => (Except.error e, checkpoint, stored)
  | Except.ok tour_config =>
    match env.riders_cfg with
    | Except.error e => (Except.error e, checkpoint, stored)
    | Except.ok riders =>
      if riders.isEmpty then
        (Except.ok
          { statusCode := 500, status := none,
            body := some "No rider registry", run_count := none },
         checkpoint, stored)
      else
        let riders_with_ids := (riders.filter
          (fun r => r.zwiftpower_id ≠ "")).map
            (fun r => Rider.mk r.zwiftpower_id r.name)
        match event.stage_override with
        | some s =>
          match tour_config.get_stage s with
          | none =>
            (Except.ok
              { statusCode := 400, status := none,
                body := some "Invalid stage", run_count := none },
             checkpoint, stored)
          | some st =>
            handler_stages env checkpoint stored tour_config
              riders_with_ids [st]
        | none =>
          if tour_config.current_stages.isEmpty then
            (Except.ok
              { statusCode := 200, status := some "no_work",
                body := some "No active stages", run_count := none },
             checkpoint, stored)
          else
            handler_stages env checkpoint stored tour_config
              riders_with_ids tour_config.current_stages

/-- The protected region: checkpoint load, run-count increment, the try
block, and the except branch that saves the checkpoint as last modified
and returns the error-status result (the save itself can raise). -/
def handler_try (env : HandlerEnv) (event : Payload)
    (stored0 : Option CheckpointData) :
    (Except String HandlerResult) × Option CheckpointData :=
  let checkpoint := (load_model stored0 env.parseIso
    env.now_ts).increment_run_count env.now_iso
  match handler_body env event checkpoint stored0 with
  | (Except.ok r, _, storedF) => (Except.ok r, storedF)
  | (Except.error e, cpF, storedF) =>
    if env.save_ok then
      (Except.ok (errorResult e (cpF.update_timestamp env.now_iso)),
       some (cpF.update_timestamp env.now_iso).to_dict)
    else (Except.error "ClientError: put_object", storedF)

/-- The top-level handler (batch_discovery.py lines 315-535).  The code
before the try block runs unprotected: a missing DATA_BUCKET raises, a
force-restart clear or the checkpoint load can raise a transport error;
only then does the protected region start.  The pair holds the
returned-or-raised outcome and the stored checkpoint object after the
invocation. -/
def handler (env : HandlerEnv) (event : Payload) :
    (Except String HandlerResult) × Option CheckpointData :=
  if env.data_bucket = "" then
    (Except.error "ValueError: DATA_BUCKET not configured", env.stored)
  else
    match (if event.force_restart then
        (if env.clear_ok then Except.ok (none : Option CheckpointData)
         else Except.error "ClientError: delete_object")
      else Except.ok env.stored) with
    | Except.error e => (Except.error e, env.stored)
    | Except.ok stored0 =>
      if env.load_ok = false then
        (Except.error "ClientError: get_object", stored0)
      else handler_try env event stored0

-- Result status characterization of the loop and the try block.

theorem loopGo_status (env : HandlerEnv) (si : List StageInfo)
    (rw0 : List Rider) :
    ∀ (b : Nat) (cp : Checkpoint) (stored : Option CheckpointData)
      (cache : List String) (r : HandlerResult),
      (loopGo env si rw0 b cp stored cache).1 = Except.ok r →
      r.status = some "partial" ∨ r.status = some "complete" := by
  intro b
  induction b with
  | zero =>
    intro cp stored cache r h
    have hr : partialResult cp = r := by
      simpa [loopGo] using h
    rw [← hr]
    exact Or.inl rfl
  | succ b ih =>
    intro cp stored cache r h
    simp only [loopGo] at h
    by_cases h1 : cp.phase = "discover_riders"
    · rw [if_pos h1] at h
      by_cases hsv : env.save_ok = false
      · rw [if_pos hsv] at h
        exact absurd h (by simp)
      · rw [if_neg hsv] at h
        by_cases hm : (process_next_batch si env.hist 5 rw0 cp).2.1 = true
        · rw [if_pos hm] at h
          exact ih _ _ _ _ h
        · rw [if_neg hm] at h
          exact ih _ _ _ _ h
    · rw [if_neg h1] at h
      by_cases h2 : cp.phase = "fetch_results"
      · rw [if_pos h2] at h
        by_cases hsv : env.save_ok = false
        · rw [if_pos hsv] at h
          exact absurd h (by simp)
        · rw [if_neg hsv] at h
          by_cases hm : (fetch_next_batch env.fenv 3 cp cache).1.1 = true
          · rw [if_pos hm] at h
            exact ih _ _ _ _ h
          · rw [if_neg hm] at h
            exact ih _ _ _ _ h
      · rw [if_neg h2] at h
        by_cases h3 : cp.phase = "complete"
        · rw [if_pos h3] at h
          cases hp : env.pgw with
          | error e =>
            rw [hp] at h
            exact absurd h (by simp)
          | ok u =>
            rw [hp] at h
            by_cases hsv : env.save_ok = false
            · rw [if_pos hsv] at h
              exact absurd h (by simp)
            · rw [if_neg hsv] at h
              have hr : completeResult
                  ((cp.mark_complete env.now_iso).update_timestamp
                    env.now_iso) = r := by simpa using h
              rw [← hr]
              exact Or.inr rfl
        · rw [if_neg h3] at h
          exact ih _ _ _ _ h

theorem handler_after_reset_status (env : HandlerEnv) (cp : Checkpoint)
    (stored : Option CheckpointData) (si : List StageInfo)
    (sn : List String) (tc : TourConfig) (rw0 : List Rider)
    (r : HandlerResult)
    (h : (handler_after_reset env cp stored si sn tc rw0).1 =
      Except.ok r) :
    r.status = some "partial" ∨ r.status = some "complete" := by
  unfold handler_after_reset at h
  cases hc : env.creds with
  | error e =>
    rw [hc] at h
    exact absurd h (by simp)
  | ok u =>
    rw [hc] at h
    exact loopGo_status env si rw0 env.budget _ stored env.cache0 r h

theorem handler_stages_status (env : HandlerEnv) (cp : Checkpoint)
    (stored : Option CheckpointData) (tc : TourConfig)
    (rw0 : List Rider) (sts : List StageInfo) (r : HandlerResult)
    (h : (handler_stages env cp stored tc rw0 sts).1 = Except.ok r) :
    r.status = some "partial" ∨ r.status = some "complete" := by
  unfold handler_stages at h
  by_cases h1 : cp.stage_numbers ≠ [] ∧
      sameSet cp.stage_numbers (sts.map (fun s => s.number)) = false
  · rw [if_pos h1] at h
    by_cases h2 : env.clear_ok = false
    · rw [if_pos h2] at h
      exact absurd h (by simp)
    · rw [if_neg h2] at h
      exact handler_after_reset_status env _ _ _ _ _ _ r h
  · rw [if_neg h1] at h
    exact handler_after_reset_status env _ _ _ _ _ _ r h

theorem handler_body_status (env : HandlerEnv) (event : Payload)
    (cp : Checkpoint) (stored : Option CheckpointData)
    (r : HandlerResult)
    (h : (handler_body env event cp stored).1 = Except.ok r) :
    r.status ∈ [some "complete", some "partial", some "no_work",
      some "error", none] := by
  unfold handler_body at h
  cases ht : env.tour with
  | error e =>
    rw [ht] at h
    exact absurd h (by simp)
  | ok tc =>
    simp only [ht] at h
    cases hr2 : env.riders_cfg with
    | error e =>
      simp only [hr2] at h
      exact absurd h (by simp)
    | ok riders =>
      simp only [hr2] at h
      by_cases hempty : riders.isEmpty
      · rw [if_pos hempty] at h
        have : r.status = none := by
          have hr3 : ({ statusCode := 500, status := none, body := some "No rider registry", run_count := none } : HandlerResult) = r := by
            simpa using h
          rw [← hr3]
        simp [this]
      · rw [if_neg hempty] at h
        cases hov : event.stage_override with
        | some s =>
          simp only [hov] at h
          cases hst : tc.get_stage s with
          | none =>
            simp only [hst] at h
            have : r.status = none := by
              have hr3 : ({ statusCode := 400, status := none, body := some "Invalid stage", run_count := none } : HandlerResult) = r := by
                simpa using h
              rw [← hr3]
            simp [this]
          | some st =>
            simp only [hst] at h
            rcases handler_stages_status env cp stored tc _ _ r h with
              h4 | h4 <;> simp [h4]
        | none =>
          simp only [hov] at h
          by_cases hcs : tc.current_stages.isEmpty
          · rw [if_pos hcs] at h
            have : r.status = some "no_work" := by
              have hr3 : ({ statusCode := 200, status := some "no_work", body := some "No active stages", run_count := none } : HandlerResult) = r := by
                simpa using h
              rw [← hr3]
            simp [this]
          · rw [if_neg hcs] at h
            rcases handler_stages_status env cp stored tc _ _ r h with
              h4 | h4 <;> simp [h4]

/-- C5 (amended).  Handler error totality: the code before the try block
runs unprotected, so a missing DATA_BUCKET, a failing force-restart
clear or a failing checkpoint load raises to the caller; but once the
try block is entered (storage transport healthy: load, clear and save
succeed), no exception escapes: every invocation returns a result whose
status, when present, is complete, partial, no_work or error (absent on
the two early returns: empty rider registry, invalid stage override);
and whenever the try block raises an exception, the handler catches it,
saves the checkpoint exactly as last modified at the raise (stamped via
update_timestamp, the way save always stamps) as the new stored
checkpoint, and returns the error-status result. -/
theorem C5_handler_total (env : HandlerEnv) (event : Payload)
    (hb : env.data_bucket ≠ "") (hl : env.load_ok = true)
    (hc : env.clear_ok = true) (hs : env.save_ok = true) :
    (handler env event).1.isOk = true ∧
    (∀ r, (handler env event).1 = Except.ok r →
      r.status ∈ [some "complete", some "partial", some "no_work",
        some "error", none]) ∧
    (∀ (e : String) (cpF : Checkpoint) (storedF : Option CheckpointData),
      handler_body env event
          ((load_model (if event.force_restart then none else env.stored)
            env.parseIso env.now_ts).increment_run_count env.now_iso)
          (if event.force_restart then none else env.stored) =
        (Except.error e, cpF, storedF) →
      handler env event =
        (Except.ok (errorResult e (cpF.update_timestamp env.now_iso)),
         some (cpF.update_timestamp env.now_iso).to_dict)) := by
  have hred : handler env event =
      handler_try env event
        (if event.force_restart then none else env.stored) := by
    unfold handler
    rw [if_neg hb]
    have hclear : (if event.force_restart then
        (if env.clear_ok then Except.ok (none : Option CheckpointData)
         else Except.error "ClientError: delete_object")
      else Except.ok env.stored) =
        Except.ok (if event.force_restart then none else env.stored) := by
      cases event.force_restart <;> simp [hc]
    rw [hclear]
    show (if env.load_ok = false then
        ((Except.error "ClientError: get_object" :
          Except String HandlerResult),
         (if event.force_restart then none else env.stored))
      else handler_try env event
        (if event.force_restart then none else env.stored)) =
      handler_try env event
        (if event.force_restart then none else env.stored)
    rw [if_neg (by simp [hl] : ¬ env.load_ok = false)]
  rw [hred]
  rcases hbody : handler_body env event
      ((load_model (if event.force_restart then none else env.stored)
        env.parseIso env.now_ts).increment_run_count env.now_iso)
      (if event.force_restart then none else env.stored) with
    ⟨res, cpF0, storedF0⟩
  cases res with
  | ok r0 =>
    have htryeq : handler_try env event
        (if event.force_restart then none else env.stored) =
        (Except.ok r0, storedF0) := by
      unfold handler_try
      simp only [hbody]
    refine ⟨?_, ?_, ?_⟩
    · rw [htryeq]
      rfl
    · intro r hr
      rw [htryeq] at hr
      have : r0 = r := by simpa using hr
      rw [← this]
      exact handler_body_status env event _ _ r0 (by rw [hbody])
    · intro e cpF storedF heq
      simp at heq
  | error e0 =>
    have htryeq : handler_try env event
        (if event.force_restart then none else env.stored) =
        (Except.ok (errorResult e0 (cpF0.update_timestamp env.now_iso)),
         some (cpF0.update_timestamp env.now_iso).to_dict) := by
      unfold handler_try
      simp only [hbody, hs, if_true]
    refine ⟨?_, ?_, ?_⟩
    · rw [htryeq]
      rfl
    · intro r hr
      rw [htryeq] at hr
      have : errorResult e0 (cpF0.update_timestamp env.now_iso) = r := by
        simpa using hr
      rw [← this]
      simp [errorResult]
    · intro e cpF storedF heq
      simp only [Prod.mk.injEq, Except.error.injEq] at heq
      obtain ⟨he, hcp, hst⟩ := heq
      rw [htryeq, he, hcp]

/-- C5 counterexample.  With DATA_BUCKET unset the handler raises a
ValueError before the try block: the exception propagates to the caller
instead of a structured status object. -/
theorem C5_handler_total_counterexample :
    (handler
      { data_bucket := "", stored := none, load_ok := true,
        clear_ok := true, save_ok := true, parseIso := fun _ => none,
        now_ts := 0, now_iso := "", tour := Except.error "cfg",
        riders_cfg := Except.error "cfg", creds := Except.error "cfg",
        hist := fun _ => [], fenv := ⟨fun _ => none, fun _ => none, ""⟩,
        cache0 := [], pgw := Except.ok (), budget := 0 }
      ⟨false, none⟩).1 =
    Except.error "ValueError: DATA_BUCKET not configured" := rfl

/-- C5 witness: a healthy environment with an exhausted budget returns a
partial result rather than raising; and when the tour-config load inside
the try block raises, the handler returns the error result and stores
exactly the loaded, incremented checkpoint stamped as last modified. -/
theorem C5_handler_total_witness :
    (("b" : String) ≠ "") ∧
    ((handler
      { data_bucket := "b", stored := none, load_ok := true,
        clear_ok := true, save_ok := true, parseIso := fun _ => none,
        now_ts := 0, now_iso := "now",
        tour := Except.ok ⟨"tdz", [⟨"1", 100, 200⟩], [⟨"1", 100, 200⟩]⟩,
        riders_cfg := Except.ok [⟨"r1", "a"⟩], creds := Except.ok ("u", "p"),
        hist := fun _ => [], fenv := ⟨fun _ => none, fun _ => none, ""⟩,
        cache0 := [], pgw := Except.ok (), budget := 0 }
      ⟨false, none⟩).1.isOk = true) ∧
    (handler
      { data_bucket := "b", stored := none, load_ok := true,
        clear_ok := true, save_ok := true, parseIso := fun _ => none,
        now_ts := 0, now_iso := "now", tour := Except.error "boom",
        riders_cfg := Except.ok [⟨"r1", "a"⟩], creds := Except.ok ("u", "p"),
        hist := fun _ => [], fenv := ⟨fun _ => none, fun _ => none, ""⟩,
        cache0 := [], pgw := Except.ok (), budget := 0 }
      ⟨false, none⟩ =
      (Except.ok (errorResult "boom"
        (Checkpoint.update_timestamp
          { run_count := 1, started_at := "now" } "now")),
       some (Checkpoint.update_timestamp
         { run_count := 1, started_at := "now" } "now").to_dict)) :=
  ⟨by decide,
   (C5_handler_total
      { data_bucket := "b", stored := none, load_ok := true,
        clear_ok := true, save_ok := true, parseIso := fun _ => none,
        now_ts := 0, now_iso := "now",
        tour := Except.ok ⟨"tdz", [⟨"1", 100, 200⟩], [⟨"1", 100, 200⟩]⟩,
        riders_cfg := Except.ok [⟨"r1", "a"⟩], creds := Except.ok ("u", "p"),
        hist := fun _ => [], fenv := ⟨fun _ => none, fun _ => none, ""⟩,
        cache0 := [], pgw := Except.ok (), budget := 0 }
      ⟨false, none⟩ (by decide) rfl rfl rfl).1,
   (C5_handler_total
      { data_bucket := "b", stored := none, load_ok := true,
        clear_ok := true, save_ok := true, parseIso := fun _ => none,
        now_ts := 0, now_iso := "now", tour := Except.error "boom",
        riders_cfg := Except.ok [⟨"r1", "a"⟩], creds := Except.ok ("u", "p"),
        hist := fun _ => [], fenv := ⟨fun _ => none, fun _ => none, ""⟩,
        cache0 := [], pgw := Except.ok (), budget := 0 }
      ⟨false, none⟩ (by decide) rfl rfl rfl).2.2
     "boom" { run_count := 1, started_at := "now" } none rfl⟩

-- Field effects of the run-count increment.

theorem incr_phase (c : Checkpoint) (iso : String) :
    (c.increment_run_count iso).phase = c.phase := by
  unfold Checkpoint.increment_run_count
  by_cases h : c.started_at = "" <;> simp [h]

theorem incr_riders (c : Checkpoint) (iso : String) :
    (c.increment_run_count iso).riders_processed =
      c.riders_processed := by
  unfold Checkpoint.increment_run_count
  by_cases h : c.started_at = "" <;> simp [h]

theorem incr_discovered (c : Checkpoint) (iso : String) :
    (c.increment_run_count iso).events_discovered =
      c.events_discovered := by
  unfold Checkpoint.increment_run_count
  by_cases h : c.started_at = "" <;> simp [h]

theorem incr_fetched (c : Checkpoint) (iso : String) :
    (c.increment_run_count iso).events_fetched = c.events_fetched := by
  unfold Checkpoint.increment_run_count
  by_cases h : c.started_at = "" <;> simp [h]

theorem incr_stage_numbers (c : Checkpoint) (iso : String) :
    (c.increment_run_count iso).stage_numbers = c.stage_numbers := by
  unfold Checkpoint.increment_run_count
  by_cases h : c.started_at = "" <;> simp [h]

theorem incr_run_count (c : Checkpoint) (iso : String) :
    (c.increment_run_count iso).run_count = c.run_count + 1 := by
  unfold Checkpoint.increment_run_count
  by_cases h : c.started_at = "" <;> simp [h]

/-- C6 (amended).  A handler invocation on a stored COMPLETE checkpoint
mutates only bookkeeping: the loop re-runs the complete branch, so
the final checkpoint keeps the progress fields (riders_processed,
events_discovered, events_fetched, stage_numbers) and the complete
phase, while run_count is incremented at load and completed_at (and
last_updated) are refreshed.  Full-field immutability, as the claim
states it, fails: see the counterexample. -/
theorem C6_complete_immutable (env : HandlerEnv) (si : List StageInfo)
    (rw0 : List Rider) (b : Nat) (cp : Checkpoint)
    (stored : Option CheckpointData) (cache : List String)
    (hphase : cp.phase = "complete") (hpgw : env.pgw = Except.ok ())
    (hs : env.save_ok = true) :
    (loopGo env si rw0 (b + 1) (cp.increment_run_count env.now_iso)
        stored cache).1 =
      Except.ok (completeResult
        (loopGo env si rw0 (b + 1) (cp.increment_run_count env.now_iso)
          stored cache).2.1) ∧
    (loopGo env si rw0 (b + 1) (cp.increment_run_count env.now_iso)
        stored cache).2.1.riders_processed = cp.riders_processed ∧
    (loopGo env si rw0 (b + 1) (cp.increment_run_count env.now_iso)
        stored cache).2.1.events_discovered = cp.events_discovered ∧
    (loopGo env si rw0 (b + 1) (cp.increment_run_count env.now_iso)
        stored cache).2.1.events_fetched = cp.events_fetched ∧
    (loopGo env si rw0 (b + 1) (cp.increment_run_count env.now_iso)
        stored cache).2.1.phase = "complete" ∧
    (loopGo env si rw0 (b + 1) (cp.increment_run_count env.now_iso)
        stored cache).2.1.stage_numbers = cp.stage_numbers ∧
    (loopGo env si rw0 (b + 1) (cp.increment_run_count env.now_iso)
        stored cache).2.1.run_count = cp.run_count + 1 ∧
    (loopGo env si rw0 (b + 1) (cp.increment_run_count env.now_iso)
        stored cache).2.1.completed_at = env.now_iso := by
  have hph : (cp.increment_run_count env.now_iso).phase = "complete" := by
    rw [incr_phase, hphase]
  have hloop : loopGo env si rw0 (b + 1)
      (cp.increment_run_count env.now_iso) stored cache =
      (Except.ok (completeResult
        (((cp.increment_run_count env.now_iso).mark_complete
          env.now_iso).update_timestamp env.now_iso)),
       ((cp.increment_run_count env.now_iso).mark_complete
         env.now_iso).update_timestamp env.now_iso,
       some (((cp.increment_run_count env.now_iso).mark_complete
         env.now_iso).update_timestamp env.now_iso).to_dict) := by
    simp only [loopGo, hph, hpgw]
    rw [if_neg (by decide : ¬ ("complete" : String) = "discover_riders")]
    rw [if_neg (by decide : ¬ ("complete" : String) = "fetch_results")]
    rw [if_pos trivial]
    rw [if_neg (by simp [hs] : ¬ env.save_ok = false)]
  rw [hloop]
  refine ⟨rfl, ?_, ?_, ?_, ?_, ?_, ?_, ?_⟩
  · show ((cp.increment_run_count
      env.now_iso).mark_complete env.now_iso).riders_processed =
        cp.riders_processed
    show (cp.increment_run_count env.now_iso).riders_processed =
      cp.riders_processed
    exact incr_riders cp env.now_iso
  · show (cp.increment_run_count env.now_iso).events_discovered =
      cp.events_discovered
    exact incr_discovered cp env.now_iso
  · show (cp.increment_run_count env.now_iso).events_fetched =
      cp.events_fetched
    exact incr_fetched cp env.now_iso
  · rfl
  · show (cp.increment_run_count env.now_iso).stage_numbers =
      cp.stage_numbers
    exact incr_stage_numbers cp env.now_iso
  · show (cp.increment_run_count env.now_iso).run_count =
      cp.run_count + 1
    exact incr_run_count cp env.now_iso
  · rfl

/-- C6 counterexample.  A stored non-expired COMPLETE checkpoint is
returned by load as is, and the unconditional run-count increment the
handler performs right after load (batch_discovery.py lines 347-348)
already changes it, so a complete checkpoint is not immutable. -/
theorem C6_complete_immutable_counterexample :
    load_model (some (Checkpoint.to_dict
      { phase := "complete", riders_processed := ["r1"], run_count := 5,
        started_at := "s", completed_at := "c" })) (fun _ => some 0) 0 =
      { phase := "complete", riders_processed := ["r1"], run_count := 5,
        started_at := "s", completed_at := "c" } ∧
    Checkpoint.increment_run_count
      (load_model (some (Checkpoint.to_dict
        { phase := "complete", riders_processed := ["r1"],
          run_count := 5, started_at := "s", completed_at := "c" }))
        (fun _ => some 0) 0) "n" ≠
      { phase := "complete", riders_processed := ["r1"], run_count := 5,
        started_at := "s", completed_at := "c" } := by decide

/-- C6 witness: a complete checkpoint pushed through the increment and
one loop iteration keeps its progress fields and phase while its run
count moves from 5 to 6. -/
theorem C6_complete_immutable_witness :
    (loopGo
      { data_bucket := "b", stored := none, load_ok := true,
        clear_ok := true, save_ok := true, parseIso := fun _ => none,
        now_ts := 0, now_iso := "now", tour := Except.ok ⟨"tdz", [], []⟩,
        riders_cfg := Except.ok [], creds := Except.ok ("u", "p"),
        hist := fun _ => [], fenv := ⟨fun _ => none, fun _ => none, ""⟩,
        cache0 := [], pgw := Except.ok (), budget := 0 }
      [] [] (0 + 1)
      (Checkpoint.increment_run_count
        { phase := "complete", riders_processed := ["r1"],
          run_count := 5, started_at := "s", completed_at := "c" } "now")
      none []).2.1.riders_processed = ["r1"] ∧
    (loopGo
      { data_bucket := "b", stored := none, load_ok := true,
        clear_ok := true, save_ok := true, parseIso := fun _ => none,
        now_ts := 0, now_iso := "now", tour := Except.ok ⟨"tdz", [], []⟩,
        riders_cfg := Except.ok [], creds := Except.ok ("u", "p"),
        hist := fun _ => [], fenv := ⟨fun _ => none, fun _ => none, ""⟩,
        cache0 := [], pgw := Except.ok (), budget := 0 }
      [] [] (0 + 1)
      (Checkpoint.increment_run_count
        { phase := "complete", riders_processed := ["r1"],
          run_count := 5, started_at := "s", completed_at := "c" } "now")
      none []).2.1.phase = "complete" ∧
    (loopGo
      { data_bucket := "b", stored := none, load_ok := true,
        clear_ok := true, save_ok := true, parseIso := fun _ => none,
        now_ts := 0, now_iso := "now", tour := Except.ok ⟨"tdz", [], []⟩,
        riders_cfg := Except.ok [], creds := Except.ok ("u", "p"),
        hist := fun _ => [], fenv := ⟨fun _ => none, fun _ => none, ""⟩,
        cache0 := [], pgw := Except.ok (), budget := 0 }
      [] [] (0 + 1)
      (Checkpoint.increment_run_count
        { phase := "complete", riders_processed := ["r1"],
          run_count := 5, started_at := "s", completed_at := "c" } "now")
      none []).2.1.run_count = 5 + 1 :=
  ⟨(C6_complete_immutable
      { data_bucket := "b", stored := none, load_ok := true,
        clear_ok := true, save_ok := true, parseIso := fun _ => none,
        now_ts := 0, now_iso := "now", tour := Except.ok ⟨"tdz", [], []⟩,
        riders_cfg := Except.ok [], creds := Except.ok ("u", "p"),
        hist := fun _ => [], fenv := ⟨fun _ => none, fun _ => none, ""⟩,
        cache0 := [], pgw := Except.ok (), budget := 0 }
      [] [] 0
      { phase := "complete", riders_processed := ["r1"], run_count := 5,
        started_at := "s", completed_at := "c" }
      none [] rfl rfl rfl).2.1,
   (C6_complete_immutable
      { data_bucket := "b", stored := none, load_ok := true,
        clear_ok := true, save_ok := true, parseIso := fun _ => none,
        now_ts := 0, now_iso := "now", tour := Except.ok ⟨"tdz", [], []⟩,
        riders_cfg := Except.ok [], creds := Except.ok ("u", "p"),
        hist := fun _ => [], fenv := ⟨fun _ => none, fun _ => none, ""⟩,
        cache0 := [], pgw := Except.ok (), budget := 0 }
      [] [] 0
      { phase := "complete", riders_processed := ["r1"], run_count := 5,
        started_at := "s", completed_at := "c" }
      none [] rfl rfl rfl).2.2.2.2.1,
   (C6_complete_immutable
      { data_bucket := "b", stored := none, load_ok := true,
        clear_ok := true, save_ok := true, parseIso := fun _ => none,
        now_ts := 0, now_iso := "now", tour := Except.ok ⟨"tdz", [], []⟩,
        riders_cfg := Except.ok [], creds := Except.ok ("u", "p"),
        hist := fun _ => [], fenv := ⟨fun _ => none, fun _ => none, ""⟩,
        cache0 := [], pgw := Except.ok (), budget := 0 }
      [] [] 0
      { phase := "complete", riders_processed := ["r1"], run_count := 5,
        started_at := "s", completed_at := "c" }
      none [] rfl rfl rfl).2.2.2.2.2.2.1⟩
